import Mathlib

/-!
Spheron Terraform provider: domain and instance resources

A shallow embedding of `internal/provider/domain_resource.go` and
`internal/provider/instance_resource.go`.

Conventions of the embedding

* Go `string` is `String`, Go `int` / `int64` is `Int` (no arithmetic is done on
  them in these files, only comparison, conversion between `int` and `int64`
  and decimal formatting), Go `error` is the `String` of `err.Error()`.
* A Go slice is `Slice α = Option (List α)`: `none` is the `nil` slice and
  `some xs` a non-nil slice with elements `xs`, so that `reflect.DeepEqual`
  on slices is equality.
* A pointer that may be `nil` is an `Option`.
* A terraform-plugin-framework value (`types.String`, `types.Int64`,
  `types.Bool`, `types.Object`) is a `TfValue`: null, unknown or known.
* A field the source names `Type` is `Type_` here.
* The REST client of package `client` is not part of these files; the
  callbacks take it as a record of functions, one per endpoint, and report
  every call they make in a trace.
* `resp.State.Set` stores the value it is given unless the framework refuses
  it. The callbacks that store the plan they were given, with computed
  attributes filled in, take it to succeed; instance `Read`, which stores set
  attributes computed from the remote order, takes it as a parameter.
-/

namespace Spheron

/-! ## Go and framework primitives -/

/-- A Go slice: `none` is `nil`, `some xs` is a non-nil slice. -/
abbrev Slice (α : Type) := Option (List α)

/-- The elements a `for ... range` loop visits. -/
def Slice.elems {α : Type} (s : Slice α) : List α := s.getD []

/-- Go `len(s)`. -/
def Slice.len {α : Type} (s : Slice α) : Nat := s.elems.length

/-- Go `append(s, xs...)`: `nil` only when `s` is `nil` and nothing is appended. -/
def Slice.append {α : Type} (s : Slice α) (xs : List α) : Slice α :=
  match s, xs with
  | none, [] => none
  | s, xs => some (s.elems ++ xs)

/-- A framework attribute value. -/
inductive TfValue (α : Type) where
  | null : TfValue α
  | unknown : TfValue α
  | known (v : α) : TfValue α
  deriving DecidableEq, Repr

/-- `IsNull()`. -/
def TfValue.IsNull {α : Type} : TfValue α → Bool
  | .null => true
  | _ => false

/-- `ValueString()`: the known string, `""` for null and unknown. -/
def TfValue.ValueString : TfValue String → String
  | .known s => s
  | _ => ""

/-- `ValueInt64()`: the known number, `0` for null and unknown. -/
def TfValue.ValueInt64 : TfValue Int → Int
  | .known n => n
  | _ => 0

/-- `ValueBool()`: the known flag, `false` for null and unknown. -/
def TfValue.ValueBool : TfValue Bool → Bool
  | .known b => b
  | _ => false

/-- `fmt.Sprintf("%s:%d", host, port)`. -/
def sprintfHostPort (host : String) (port : Int) : String :=
  host ++ ":" ++ toString port

/-- A diagnostic added with `resp.Diagnostics.AddError(summary, detail)`. -/
structure Diagnostic where
  summary : String
  detail : String
  deriving DecidableEq, Repr

/-! ## Package `client`: the types the provider uses -/

namespace client

/-- `client.Port`. -/
structure Port where
  ContainerPort : Int
  ExposedPort : Int
  deriving DecidableEq, Repr

/-- `client.Env`. -/
structure Env where
  Value : String
  IsSecret : Bool
  deriving DecidableEq, Repr

/-- The struct behind `InstanceOrder.ProtocolData`. -/
structure ProtocolData where
  ProviderHost : String
  deriving DecidableEq, Repr

/-- The struct behind `ClusterInstanceConfiguration.AgreedMachineImage`. -/
structure AgreedMachineImage where
  MachineType : String
  deriving DecidableEq, Repr

/-- The struct behind `InstanceOrder.ClusterInstanceConfiguration`. -/
structure ClusterInstanceConfiguration where
  Image : String
  Tag : String
  Ports : Slice Port
  Env : Slice Env
  Command : Slice String
  Args : Slice String
  Region : String
  AgreedMachineImage : AgreedMachineImage
  deriving DecidableEq, Repr

/-- `client.InstanceOrder`. -/
structure InstanceOrder where
  ProtocolData : Option ProtocolData
  ClusterInstanceConfiguration : ClusterInstanceConfiguration
  URLPreview : String
  deriving DecidableEq, Repr

end client

/-! ## `domain_resource.go`: URL and port matching -/

/-- The body of the `range` loop of `getInstanceDeploymentURL`; `none` when the
loop ends without returning. -/
def getInstanceDeploymentURL.loop (host URLPreview : String) (desiredPort : Int) :
    List client.Port → Option String
  | [] => none
  | port :: rest =>
    if port.ContainerPort = desiredPort then
      if port.ExposedPort = 80 ∧ URLPreview ≠ "" then
        some URLPreview
      else
        some (sprintfHostPort host port.ExposedPort)
    else
      getInstanceDeploymentURL.loop host URLPreview desiredPort rest

/-- `getInstanceDeploymentURL(input, desiredPort)`. -/
def getInstanceDeploymentURL (input : client.InstanceOrder) (desiredPort : Int) : String :=
  match input.ProtocolData with
  | some pd =>
    if pd.ProviderHost ≠ "" then
      match getInstanceDeploymentURL.loop pd.ProviderHost input.URLPreview desiredPort
          input.ClusterInstanceConfiguration.Ports.elems with
      | some url => url
      | none => ""
    else ""
  | none => ""

/-- The error of `getPortFromDeploymentURL`. -/
def noMatchingPort : String := "no matching port found for the provided URL"

/-- The body of the `range` loop of `getPortFromDeploymentURL`; `none` when the
loop ends without returning. -/
def getPortFromDeploymentURL.loop (host URLPreview urlStr : String) :
    List client.Port → Option Int
  | [] => none
  | port :: rest =>
    if urlStr = URLPreview ∧ port.ExposedPort = 80 then
      some port.ContainerPort
    else if urlStr = sprintfHostPort host port.ExposedPort then
      some port.ContainerPort
    else
      getPortFromDeploymentURL.loop host URLPreview urlStr rest

/-- `getPortFromDeploymentURL(input, urlStr)`: the pair `(port, err)`, with
`err = none` for Go's `nil` error. -/
def getPortFromDeploymentURL (input : client.InstanceOrder) (urlStr : String) :
    Int × Option String :=
  match input.ProtocolData with
  | some pd =>
    if pd.ProviderHost ≠ "" then
      match getPortFromDeploymentURL.loop pd.ProviderHost input.URLPreview urlStr
          input.ClusterInstanceConfiguration.Ports.elems with
      | some p => (p, none)
      | none => (0, some noMatchingPort)
    else (0, some noMatchingPort)
  | none => (0, some noMatchingPort)

/-- Modelled from the spec: the value of the constant `client.DomainTypeDomain`,
declared in package `client` outside these files; the `type` attribute documents
the available options as "domain" and "subdomain". -/
def client.DomainTypeDomain : String := "domain"

/-- Modelled from the spec: the value of the constant `client.DomainTypeSubdomain`,
declared in package `client` outside these files; the `type` attribute documents
the available options as "domain" and "subdomain". -/
def client.DomainTypeSubdomain : String := "subdomain"

/-- `isValidDomainType(value)`. -/
def isValidDomainType (value : String) : Bool :=
  if value = client.DomainTypeDomain ∨ value = client.DomainTypeSubdomain then true
  else false

namespace client

/-- `client.DomainRequest`. -/
structure DomainRequest where
  Name : String
  Type_ : String
  Link : String
  deriving DecidableEq, Repr

/-- `client.Domain`. -/
structure Domain where
  ID : String
  Name : String
  Verified : Bool
  Link : String
  Type_ : String
  deriving DecidableEq, Repr

/-- The struct behind `Instance.HealthCheck`. -/
structure HealthCheck where
  URL : String
  Port : Port
  deriving DecidableEq, Repr

/-- `client.Instance`. -/
structure Instance where
  ActiveOrder : String
  Cluster : String
  HealthCheck : HealthCheck
  deriving DecidableEq, Repr

end client

/-- `findDomainByID(domains, id)`: the pair `(domain, err)`. -/
def findDomainByID (domains : List client.Domain) (id : String) :
    client.Domain × Option String :=
  match domains with
  | [] => ({ ID := "", Name := "", Verified := false, Link := "", Type_ := "" }, some ("Domain with ID " ++ id ++ " not found"))
  | domain :: rest => if domain.ID = id then (domain, none) else findDomainByID rest id

/-! ## Package `client`: requests, responses and the API -/

namespace client

/-- The enumeration `client.ClusterProtocol`, of which the provider uses one value. -/
inductive ClusterProtocol where
  | ClusterProtocolAkash : ClusterProtocol
  deriving DecidableEq, Repr

/-- `client.InstanceConfiguration`, the configuration of a create request. -/
structure InstanceConfiguration where
  FolderName : String
  Protocol : ClusterProtocol
  Image : String
  Tag : String
  InstanceCount : Int
  BuildImage : Bool
  Ports : Slice Port
  Env : Slice Env
  Command : Slice String
  Args : Slice String
  Region : String
  AkashMachineImageName : String
  deriving DecidableEq, Repr

/-- `client.CreateInstanceRequest`. -/
structure CreateInstanceRequest where
  OrganizationID : String
  UniqueTopicID : String
  Configuration : InstanceConfiguration
  ClusterURL : String
  ClusterProvider : String
  ClusterName : String
  HealthCheckURL : String
  HealthCheckPort : String
  deriving DecidableEq, Repr

/-- `client.HealthCheckUpdateReq`. -/
structure HealthCheckUpdateReq where
  HealthCheckURL : String
  HealthCheckPort : Int
  deriving DecidableEq, Repr

/-- `client.UpdateInstanceRequest`. -/
structure UpdateInstanceRequest where
  Env : Slice Env
  Command : Slice String
  Args : Slice String
  UniqueTopicID : String
  Tag : String
  OrganizationID : String
  deriving DecidableEq, Repr

/-- What the provider reads of the organization `GetOrganization` returns. -/
structure Organization where
  ID : String
  deriving DecidableEq, Repr

/-- What the provider reads of the response of `CreateClusterInstance`. -/
structure InstanceResponse where
  ClusterInstanceID : String
  deriving DecidableEq, Repr

/-- What the provider reads of the cluster `GetCluster` returns. -/
structure Cluster where
  Name : String
  deriving DecidableEq, Repr

/-- The REST client `client.SpheronApi`: one function per endpoint the two
resources call, returning the value or the error of the call. Results the
provider discards are `Unit`. -/
structure SpheronApi where
  GetOrganization : Except String Organization
  GetCluster : String → Except String Cluster
  GetClusterInstance : String → Except String Instance
  GetClusterInstanceOrder : String → Except String InstanceOrder
  GetClusterInstanceDomains : String → Except String (List Domain)
  AddClusterInstanceDomain : String → DomainRequest → Except String Domain
  UpdateClusterInstanceDomain : String → String → DomainRequest → Except String Domain
  DeleteClusterInstanceDomain : String → String → Option String
  CreateClusterInstance : CreateInstanceRequest → Except String InstanceResponse
  UpdateClusterInstance : String → UpdateInstanceRequest → Except String Unit
  UpdateClusterInstanceHealthCheckInfo : String → HealthCheckUpdateReq → Except String Unit
  CloseClusterInstance : String → Except String Unit
  WaitForDeployedEvent : String → Except String String

end client

/-- A call made on the REST client, with its arguments. -/
inductive ApiCall where
  | GetOrganization : ApiCall
  | GetCluster (id : String) : ApiCall
  | GetClusterInstance (id : String) : ApiCall
  | GetClusterInstanceOrder (id : String) : ApiCall
  | GetClusterInstanceDomains (instanceID : String) : ApiCall
  | AddClusterInstanceDomain (instanceID : String) (request : client.DomainRequest) : ApiCall
  | UpdateClusterInstanceDomain (instanceID domainID : String)
      (request : client.DomainRequest) : ApiCall
  | DeleteClusterInstanceDomain (instanceID domainID : String) : ApiCall
  | CreateClusterInstance (request : client.CreateInstanceRequest) : ApiCall
  | UpdateClusterInstance (id : String) (request : client.UpdateInstanceRequest) : ApiCall
  | UpdateClusterInstanceHealthCheckInfo (id : String)
      (request : client.HealthCheckUpdateReq) : ApiCall
  | CloseClusterInstance (id : String) : ApiCall
  | WaitForDeployedEvent (topicID : String) : ApiCall
  deriving DecidableEq, Repr

/-- What a callback leaves behind: the error diagnostics it added, the value it
passed to `resp.State.Set` (`none` when it did not call it) and the calls it
made on the client, in order. -/
structure Response (σ : Type) where
  Diagnostics : List Diagnostic
  State : Option σ
  calls : List ApiCall
  deriving Repr

/-! ## `domain_resource.go`: the callbacks

The callbacks start from the plan (or prior state) the framework decoded
without error. -/

/-- `DomainResourceModel`. -/
structure DomainResourceModel where
  ID : TfValue String
  Name : TfValue String
  Verified : TfValue Bool
  InstancePort : TfValue Int
  Type_ : TfValue String
  InstanceID : TfValue String
  deriving DecidableEq, Repr

/-- The diagnostic of an unsupported domain type. -/
def domainTypeNotSupported : Diagnostic :=
  ⟨"DomainType not supported.",
   "DomainType not supported. Supported domain types are: doain and subdomain."⟩

/-- The summary of the errors before the domain request is sent. -/
def unableToCreateDomainForInstance : String := "Unable to create domain for instance"

/-- `(r *DomainResource) Create`. -/
def DomainResource.Create (r : client.SpheronApi) (plan : DomainResourceModel) :
    Response DomainResourceModel :=
  if ¬ isValidDomainType plan.Type_.ValueString then
    ⟨[domainTypeNotSupported], none, []⟩
  else
    let c1 := ApiCall.GetClusterInstance plan.InstanceID.ValueString
    match r.GetClusterInstance plan.InstanceID.ValueString with
    | .error err => ⟨[⟨unableToCreateDomainForInstance, err⟩], none, [c1]⟩
    | .ok inst =>
      let c2 := ApiCall.GetClusterInstanceOrder inst.ActiveOrder
      match r.GetClusterInstanceOrder inst.ActiveOrder with
      | .error err => ⟨[⟨unableToCreateDomainForInstance, err⟩], none, [c1, c2]⟩
      | .ok order =>
        let url := getInstanceDeploymentURL order plan.InstancePort.ValueInt64
        if url = "" then
          ⟨[⟨unableToCreateDomainForInstance, unableToCreateDomainForInstance⟩], none,
            [c1, c2]⟩
        else
          let domainRequest : client.DomainRequest :=
            { Name := plan.Name.ValueString, Type_ := plan.Type_.ValueString, Link := url }
          let c3 := ApiCall.AddClusterInstanceDomain plan.InstanceID.ValueString domainRequest
          match r.AddClusterInstanceDomain plan.InstanceID.ValueString domainRequest with
          | .error err => ⟨[⟨"Unable to create domain", err⟩], none, [c1, c2, c3]⟩
          | .ok domain =>
            ⟨[], some { plan with ID := .known domain.ID, Verified := .known domain.Verified },
              [c1, c2, c3]⟩

/-- `(r *DomainResource) Update`. -/
def DomainResource.Update (r : client.SpheronApi) (plan : DomainResourceModel) :
    Response DomainResourceModel :=
  if ¬ isValidDomainType plan.Type_.ValueString then
    ⟨[domainTypeNotSupported], none, []⟩
  else
    let c1 := ApiCall.GetClusterInstance plan.InstanceID.ValueString
    match r.GetClusterInstance plan.InstanceID.ValueString with
    | .error err => ⟨[⟨unableToCreateDomainForInstance, err⟩], none, [c1]⟩
    | .ok inst =>
      let c2 := ApiCall.GetClusterInstanceOrder inst.ActiveOrder
      match r.GetClusterInstanceOrder inst.ActiveOrder with
      | .error err => ⟨[⟨unableToCreateDomainForInstance, err⟩], none, [c1, c2]⟩
      | .ok order =>
        let url := getInstanceDeploymentURL order plan.InstancePort.ValueInt64
        if url = "" then
          ⟨[⟨unableToCreateDomainForInstance, unableToCreateDomainForInstance⟩], none,
            [c1, c2]⟩
        else
          let domainRequest : client.DomainRequest :=
            { Name := plan.Name.ValueString, Type_ := plan.Type_.ValueString, Link := url }
          let c3 := ApiCall.UpdateClusterInstanceDomain plan.InstanceID.ValueString
            plan.ID.ValueString domainRequest
          match r.UpdateClusterInstanceDomain plan.InstanceID.ValueString
              plan.ID.ValueString domainRequest with
          | .error err => ⟨[⟨"Unable to create domain", err⟩], none, [c1, c2, c3]⟩
          | .ok domain =>
            ⟨[], some { plan with Verified := .known domain.Verified }, [c1, c2, c3]⟩

/-- `(r *DomainResource) Read`. The error of `findDomainByID` is overwritten
unread, so a missing domain is read as the zero `client.Domain`. -/
def DomainResource.Read (r : client.SpheronApi) (state : DomainResourceModel) :
    Response DomainResourceModel :=
  if state.ID.IsNull ∨ state.InstanceID.IsNull then
    ⟨[⟨"Id or instanceId not provided. Unable to get domain details.",
       "Id or instanceId not provided. Unable to get domain details."⟩], none, []⟩
  else
    let c1 := ApiCall.GetClusterInstanceDomains state.InstanceID.ValueString
    match r.GetClusterInstanceDomains state.InstanceID.ValueString with
    | .error err =>
      ⟨[⟨"Coudn't fetch instance domains for provided instance id.", err⟩], none, [c1]⟩
    | .ok domains =>
      let c2 := ApiCall.GetClusterInstance state.InstanceID.ValueString
      match r.GetClusterInstance state.InstanceID.ValueString with
      | .error err => ⟨[⟨"Coudn't fetch instance for specified domain.", err⟩], none, [c1, c2]⟩
      | .ok inst =>
        let c3 := ApiCall.GetClusterInstanceOrder inst.ActiveOrder
        match r.GetClusterInstanceOrder inst.ActiveOrder with
        | .error err =>
          ⟨[⟨"Instance domain is attached to doesn't have provisioned deployments.", err⟩],
            none, [c1, c2, c3]⟩
        | .ok order =>
          let domain := (findDomainByID domains state.ID.ValueString).1
          match getPortFromDeploymentURL order domain.Link with
          | (_, some err) =>
            ⟨[⟨"Instance doesn't have provisioned deployments.", err⟩], none, [c1, c2, c3]⟩
          | (containerPort, none) =>
            ⟨[], some { state with
                InstancePort := .known containerPort
                Name := .known domain.Name
                Verified := .known domain.Verified
                Type_ := .known domain.Type_ },
              [c1, c2, c3]⟩

/-! ## Package `strings`: the functions `instance_resource.go` calls -/

namespace strings

/-- `strings.Index(s, sep)` on the characters of the strings: the position of
the first occurrence of `sep` in `s`, `none` for Go's `-1`. -/
def Index : List Char → List Char → Option Nat
  | [], sep => if sep.isPrefixOf [] then some 0 else none
  | c :: s, sep =>
    if sep.isPrefixOf (c :: s) then some 0 else (Index s sep).map (· + 1)

/-- The loop of `genSplit` for a non-empty separator: at most `k` cuts. -/
def SplitN.loop (sep : List Char) : Nat → List Char → List (List Char)
  | 0, s => [s]
  | k + 1, s =>
    match Index s sep with
    | none => [s]
    | some m => s.take m :: SplitN.loop sep k (s.drop (m + sep.length))

/-- `strings.SplitN(s, sep, n)` for a non-empty `sep` and `n ≥ 0`: at most `n`
pieces, the last one the unsplit remainder. -/
def SplitN (s sep : String) (n : Nat) : List String :=
  if n = 0 then []
  else (SplitN.loop sep.data (min n (s.utf8ByteSize + 1) - 1) s.data).map String.mk

/-- `strings.HasPrefix(s, pre)`. -/
def HasPrefix (s pre : String) : Bool := pre.data.isPrefixOf s.data

/-- `strings.TrimPrefix(s, pre)`. -/
def TrimPrefix (s pre : String) : String :=
  if HasPrefix s pre then ⟨s.data.drop pre.data.length⟩ else s

end strings

/-! ## `instance_resource.go`: model and mapping functions -/

/-- `Port` of the provider model. -/
structure Port where
  ContainerPort : TfValue Int
  ExposedPort : TfValue Int
  deriving DecidableEq, Repr

/-- `Env` of the provider model. -/
structure Env where
  Key : TfValue String
  Value : TfValue String
  deriving DecidableEq, Repr

/-- `HealthCheck` of the provider model. -/
structure HealthCheck where
  Port : TfValue Int
  Path : TfValue String
  deriving DecidableEq, Repr

/-- `InstanceResourceModel`. The `types.Object` of `health_check` is a
`TfValue` of its two attributes. -/
structure InstanceResourceModel where
  Image : TfValue String
  Tag : TfValue String
  ClusterName : TfValue String
  Ports : Slice Port
  Env : Slice Env
  EnvSecret : Slice Spheron.Env
  Commands : Slice String
  Args : Slice String
  Region : TfValue String
  MachineImage : TfValue String
  Id : TfValue String
  HealthCheck : TfValue HealthCheck
  deriving DecidableEq, Repr

/-- `var healthCheck HealthCheck; plan.HealthCheck.As(ctx, &healthCheck, opts)`
with the zero `ObjectAsOptions`: a known object fills the target, a null or
unknown one leaves it at its zero value (both fields null); the diagnostics
`As` returns are discarded by the callers. -/
def HealthCheck.As (object : TfValue HealthCheck) : HealthCheck :=
  match object with
  | .known h => h
  | _ => ⟨.null, .null⟩

/-- `mapPortToPortModel(portList)`. -/
def mapPortToPortModel (portList : Slice Port) : Slice client.Port :=
  portList.elems.foldl
    (fun ports pm =>
      let exposedPort :=
        if pm.ExposedPort.ValueInt64 ≠ 0 then pm.ExposedPort.ValueInt64
        else pm.ContainerPort.ValueInt64
      ports.append [{ ContainerPort := pm.ContainerPort.ValueInt64, ExposedPort := exposedPort }])
    (some [])

/-- `mapModelPortToPort(portList)`. -/
def mapModelPortToPort (portList : Slice client.Port) : Slice Port :=
  portList.elems.foldl
    (fun ports pm =>
      ports.append [{ ContainerPort := .known pm.ContainerPort,
                      ExposedPort := .known pm.ExposedPort }])
    (some [])

/-- `mapEnvsToClientEnvs(envList, isSecret)`. -/
def mapEnvsToClientEnvs (envList : Slice Env) (isSecret : Bool) : Slice client.Env :=
  envList.elems.foldl
    (fun clientEnvs env =>
      clientEnvs.append
        [{ Value := env.Key.ValueString ++ "=" ++ env.Value.ValueString, IsSecret := isSecret }])
    (some [])

/-- The `range` loop of `mapClientEnvsToEnvs`; `none` when `split[1]` is out of
range and the function panics. -/
def mapClientEnvsToEnvs.loop (isSecret : Bool) : List client.Env → Slice Env → Option (Slice Env)
  | [], envList => some envList
  | clientEnv :: rest, envList =>
    if clientEnv.IsSecret ≠ isSecret then
      mapClientEnvsToEnvs.loop isSecret rest envList
    else
      match strings.SplitN clientEnv.Value "=" 2 with
      | keyString :: valueString :: _ =>
        mapClientEnvsToEnvs.loop isSecret rest
          (envList.append [{ Key := .known keyString, Value := .known valueString }])
      | _ => none

/-- `mapClientEnvsToEnvs(clientEnvs, isSecret)`; `none` when it panics. -/
def mapClientEnvsToEnvs (clientEnvs : Slice client.Env) (isSecret : Bool) :
    Option (Slice Env) :=
  match mapClientEnvsToEnvs.loop isSecret clientEnvs.elems (some []) with
  | none => none
  | some envList => if envList.len = 0 then some none else some envList

/-- The field `Data` of the local type `ResponseData` of `ParseClientPorts`. -/
structure ResponseData_Data where
  DeploymentStatus : String
  LatestUrlPreview : String
  ProviderHost : String
  Ports : Slice client.Port
  deriving DecidableEq, Repr

/-- The local type `ResponseData` of `ParseClientPorts`. -/
structure ResponseData where
  Type_ : Int
  Data : ResponseData_Data
  Session : String
  deriving DecidableEq, Repr

/-- `ParseClientPorts(responseString)`. The decoder `json.Unmarshal` of the
standard library, from the text to the decoded `ResponseData` or its error, is
the parameter `jsonUnmarshal`. -/
def ParseClientPorts (jsonUnmarshal : String → Except String ResponseData)
    (responseString : String) : Except String (Slice client.Port) :=
  let trimmedString := strings.TrimPrefix responseString "data: "
  match jsonUnmarshal trimmedString with
  | .error err => .error err
  | .ok responseData => .ok responseData.Data.Ports

/-! ## `instance_resource.go`: the callbacks

`uuid.New().String()` is the parameter `topicId`. -/

/-- The configuration `(r *InstanceResource) Create` builds from the plan. -/
def InstanceResource.Create.instanceConfig (plan : InstanceResourceModel) :
    client.InstanceConfiguration :=
  let region := if plan.Region.ValueString = "" then "any" else plan.Region.ValueString
  { FolderName := ""
    Protocol := client.ClusterProtocol.ClusterProtocolAkash
    Image := plan.Image.ValueString
    Tag := plan.Tag.ValueString
    InstanceCount := 1
    BuildImage := false
    Ports := mapPortToPortModel plan.Ports
    Env := (mapEnvsToClientEnvs plan.Env false).append
      (mapEnvsToClientEnvs plan.EnvSecret true).elems
    Command := plan.Commands
    Args := plan.Args
    Region := region
    AkashMachineImageName := plan.MachineImage.ValueString }

/-- The request `(r *InstanceResource) Create` sends to `CreateClusterInstance`. -/
def InstanceResource.Create.createRequest (organization : client.Organization)
    (topicId : String) (plan : InstanceResourceModel) : client.CreateInstanceRequest :=
  let healthCheck := HealthCheck.As plan.HealthCheck
  { OrganizationID := organization.ID
    UniqueTopicID := topicId
    Configuration := InstanceResource.Create.instanceConfig plan
    ClusterURL := plan.Image.ValueString
    ClusterProvider := "DOCKERHUB"
    ClusterName := plan.ClusterName.ValueString
    HealthCheckURL := healthCheck.Path.ValueString
    HealthCheckPort := "" }

/-- The diagnostic of a failed deployment in `(r *InstanceResource) Create`. -/
def instanceDeploymentFailed (plan : InstanceResourceModel) : Diagnostic :=
  ⟨"Instance deployment failed.",
   "Instance deployment on cluster " ++ plan.ClusterName.ValueString ++ " failed."⟩

/-- `(r *InstanceResource) Create`. -/
def InstanceResource.Create (jsonUnmarshal : String → Except String ResponseData)
    (r : client.SpheronApi) (topicId : String) (plan : InstanceResourceModel) :
    Response InstanceResourceModel :=
  let c1 := ApiCall.GetOrganization
  match r.GetOrganization with
  | .error err => ⟨[⟨"Unable to get organization", err⟩], none, [c1]⟩
  | .ok organization =>
    let createRequest := InstanceResource.Create.createRequest organization topicId plan
    let c2 := ApiCall.CreateClusterInstance createRequest
    match r.CreateClusterInstance createRequest with
    | .error err => ⟨[⟨"Unable to deploy instance", err⟩], none, [c1, c2]⟩
    | .ok response =>
      let c3 := ApiCall.WaitForDeployedEvent topicId
      match r.WaitForDeployedEvent topicId with
      | .error _ => ⟨[instanceDeploymentFailed plan], none, [c1, c2, c3]⟩
      | .ok eventDataString =>
        match ParseClientPorts jsonUnmarshal eventDataString with
        | .error _ => ⟨[instanceDeploymentFailed plan], none, [c1, c2, c3]⟩
        | .ok ports =>
          ⟨[], some { plan with
              Id := .known response.ClusterInstanceID
              Ports := mapModelPortToPort ports },
            [c1, c2, c3]⟩

/-- The last part of `(r *InstanceResource) Read`, after the three calls have
succeeded; `none` when `mapClientEnvsToEnvs` panics. -/
def InstanceResource.Read.mapState (state : InstanceResourceModel) (inst : client.Instance)
    (order : client.InstanceOrder) (cluster : client.Cluster) : Option InstanceResourceModel :=
  match mapClientEnvsToEnvs order.ClusterInstanceConfiguration.Env false with
  | none => none
  | some env =>
    match mapClientEnvsToEnvs order.ClusterInstanceConfiguration.Env true with
    | none => none
    | some envSecret =>
      let healthCheck :=
        if inst.HealthCheck.Port ≠ ⟨0, 0⟩ then
          TfValue.known { Port := .known inst.HealthCheck.Port.ContainerPort
                          Path := .known inst.HealthCheck.URL }
        else state.HealthCheck
      some { state with
        Args := order.ClusterInstanceConfiguration.Args
        ClusterName := .known cluster.Name
        Commands := order.ClusterInstanceConfiguration.Command
        Env := env
        EnvSecret := envSecret
        HealthCheck := healthCheck
        Image := .known order.ClusterInstanceConfiguration.Image
        MachineImage := .known order.ClusterInstanceConfiguration.AgreedMachineImage.MachineType
        Ports := mapModelPortToPort order.ClusterInstanceConfiguration.Ports
        Region := .known order.ClusterInstanceConfiguration.Region
        Tag := .known order.ClusterInstanceConfiguration.Tag }

/-- `(r *InstanceResource) Read`; `none` when it panics. `resp.State.Set` of the
plugin framework is the parameter `stateSet`: the error diagnostics it returns
for the value it is given, the value being stored when there are none. -/
def InstanceResource.Read (stateSet : InstanceResourceModel → List Diagnostic)
    (r : client.SpheronApi) (state : InstanceResourceModel) :
    Option (Response InstanceResourceModel) :=
  if state.Id.IsNull then
    some ⟨[⟨"Id not provided. Unable to get instance details.",
            "Id not provided. Unable to get instance details."⟩], none, []⟩
  else
    let c1 := ApiCall.GetClusterInstance state.Id.ValueString
    match r.GetClusterInstance state.Id.ValueString with
    | .error err => some ⟨[⟨"Coudnt fetch instance by provided id.", err⟩], none, [c1]⟩
    | .ok inst =>
      let c2 := ApiCall.GetClusterInstanceOrder inst.ActiveOrder
      match r.GetClusterInstanceOrder inst.ActiveOrder with
      | .error err =>
        some ⟨[⟨"Instance doesn't have provisioned deployments.", err⟩], none, [c1, c2]⟩
      | .ok order =>
        let c3 := ApiCall.GetCluster inst.Cluster
        match r.GetCluster inst.Cluster with
        | .error err => some ⟨[⟨"Instance cluster not found.", err⟩], none, [c1, c2, c3]⟩
        | .ok cluster =>
          match InstanceResource.Read.mapState state inst order cluster with
          | none => none
          | some newState =>
            let diags := stateSet newState
            some ⟨diags, if diags.isEmpty then some newState else none, [c1, c2, c3]⟩

/-- The environment list `(r *InstanceResource) Update` builds from the plan. -/
def InstanceResource.Update.envs (plan : InstanceResourceModel) : Slice client.Env :=
  (mapEnvsToClientEnvs plan.Env false).append (mapEnvsToClientEnvs plan.EnvSecret true).elems

/-- The request `(r *InstanceResource) Update` sends to `UpdateClusterInstance`. -/
def InstanceResource.Update.updateRequest (organization : client.Organization)
    (topicId : String) (plan : InstanceResourceModel) : client.UpdateInstanceRequest :=
  { Env := InstanceResource.Update.envs plan
    Command := plan.Commands
    Args := plan.Args
    UniqueTopicID := topicId
    Tag := plan.Tag.ValueString
    OrganizationID := organization.ID }

/-- `(r *InstanceResource) Update` after the health-check step; `calls` are the
calls made so far. -/
def InstanceResource.Update.afterHealthCheck (r : client.SpheronApi) (topicId : String)
    (plan : InstanceResourceModel) (organization : client.Organization)
    (calls : List ApiCall) : Response InstanceResourceModel :=
  let c1 := ApiCall.GetClusterInstance plan.Id.ValueString
  match r.GetClusterInstance plan.Id.ValueString with
  | .error err => ⟨[⟨"Coudnt fetch instance by provided id.", err⟩], none, calls ++ [c1]⟩
  | .ok inst =>
    let c2 := ApiCall.GetClusterInstanceOrder inst.ActiveOrder
    match r.GetClusterInstanceOrder inst.ActiveOrder with
    | .error err =>
      ⟨[⟨"Instance doesn't have provisioned deployments.", err⟩], none, calls ++ [c1, c2]⟩
    | .ok order =>
      let envs := InstanceResource.Update.envs plan
      let argsEqual : Bool := order.ClusterInstanceConfiguration.Args = plan.Args
      let commandEqual : Bool := order.ClusterInstanceConfiguration.Command = plan.Commands
      let envEqual : Bool := envs = order.ClusterInstanceConfiguration.Env
      let tagEqual : Bool := plan.Tag.ValueString = order.ClusterInstanceConfiguration.Tag
      if !argsEqual || !commandEqual || !envEqual || !tagEqual then
        let updateRequest := InstanceResource.Update.updateRequest organization topicId plan
        let c3 := ApiCall.UpdateClusterInstance plan.Id.ValueString updateRequest
        match r.UpdateClusterInstance plan.Id.ValueString updateRequest with
        | .error err => ⟨[⟨"Unable to update instance.", err⟩], none, calls ++ [c1, c2, c3]⟩
        | .ok _ =>
          let c4 := ApiCall.WaitForDeployedEvent topicId
          match r.WaitForDeployedEvent topicId with
          | .error err =>
            ⟨[⟨"Instance deployment failed", err⟩], none, calls ++ [c1, c2, c3, c4]⟩
          | .ok _ => ⟨[], some plan, calls ++ [c1, c2, c3, c4]⟩
      else
        ⟨[], some plan, calls ++ [c1, c2]⟩

/-- `(r *InstanceResource) Update`. -/
def InstanceResource.Update (r : client.SpheronApi) (topicId : String)
    (plan : InstanceResourceModel) : Response InstanceResourceModel :=
  let c0 := ApiCall.GetOrganization
  match r.GetOrganization with
  | .error err => ⟨[⟨"Unable to get organization", err⟩], none, [c0]⟩
  | .ok organization =>
    let healthCheck := HealthCheck.As plan.HealthCheck
    if !healthCheck.Path.IsNull && !healthCheck.Port.IsNull then
      let hcUpdate : client.HealthCheckUpdateReq :=
        { HealthCheckURL := healthCheck.Path.ValueString
          HealthCheckPort := healthCheck.Port.ValueInt64 }
      let c := ApiCall.UpdateClusterInstanceHealthCheckInfo plan.Id.ValueString hcUpdate
      match r.UpdateClusterInstanceHealthCheckInfo plan.Id.ValueString hcUpdate with
      | .error err =>
        ⟨[⟨"Unable to update instance healthchek endpoint.", err⟩], none, [c0, c]⟩
      | .ok _ => InstanceResource.Update.afterHealthCheck r topicId plan organization [c0, c]
    else
      InstanceResource.Update.afterHealthCheck r topicId plan organization [c0]

/-! ## Predicates and values used to state the properties -/

/-- The number a list of decimal digit characters denotes. -/
def decimalValue (l : List Char) : Nat :=
  l.foldl (fun acc c => acc * 10 + (c.toNat - 48)) 0

/-- An order with two configured ports, the first exposed on port 80 with a
preview URL. -/
def exampleOrder : client.InstanceOrder :=
  { ProtocolData := some ⟨"provider.example"⟩
    URLPreview := "app.example"
    ClusterInstanceConfiguration :=
      { Image := "nginx", Tag := "latest"
        Ports := some [⟨8080, 80⟩, ⟨3000, 31000⟩]
        Env := some [⟨"A=1", false⟩, ⟨"KEY=s=t", true⟩, ⟨"B=", false⟩]
        Command := none, Args := none, Region := "any"
        AgreedMachineImage := ⟨"small"⟩ } }

/-- A client whose every call succeeds: the instance has the order
`exampleOrder`, and a domain request is answered with a verified domain
`domain-1` carrying the request's name, link and type. -/
def exampleApi : client.SpheronApi :=
  { GetOrganization := .ok ⟨"org-1"⟩
    GetCluster := fun _ => .ok ⟨"cluster-a"⟩
    GetClusterInstance := fun _ => .ok ⟨"order-1", "cluster-1", ⟨"/health", ⟨8080, 80⟩⟩⟩
    GetClusterInstanceOrder := fun _ => .ok exampleOrder
    GetClusterInstanceDomains := fun _ =>
      .ok [⟨"domain-0", "other.example", true, "app.example", "domain"⟩,
           ⟨"domain-1", "www.example", true, "provider.example:31000", "subdomain"⟩]
    AddClusterInstanceDomain := fun _ request =>
      .ok ⟨"domain-1", request.Name, true, request.Link, request.Type_⟩
    UpdateClusterInstanceDomain := fun _ domainID request =>
      .ok ⟨domainID, request.Name, true, request.Link, request.Type_⟩
    DeleteClusterInstanceDomain := fun _ _ => none
    CreateClusterInstance := fun _ => .ok ⟨"instance-1"⟩
    UpdateClusterInstance := fun _ _ => .ok ()
    UpdateClusterInstanceHealthCheckInfo := fun _ _ => .ok ()
    CloseClusterInstance := fun _ => .ok ()
    WaitForDeployedEvent := fun _ => .ok "data: event" }

/-- A domain plan for container port 3000 of instance `instance-1`. -/
def exampleDomainPlan : DomainResourceModel :=
  { ID := .unknown
    Name := .known "www.example"
    Verified := .unknown
    InstancePort := .known 3000
    Type_ := .known "subdomain"
    InstanceID := .known "instance-1" }

/-- An order whose two container ports are both exposed on port 31000. -/
def sharedExposedPortOrder : client.InstanceOrder :=
  { ProtocolData := some ⟨"provider.example"⟩
    URLPreview := ""
    ClusterInstanceConfiguration :=
      { Image := "nginx", Tag := "latest"
        Ports := some [⟨8080, 31000⟩, ⟨3000, 31000⟩]
        Env := none, Command := none, Args := none, Region := "any"
        AgreedMachineImage := ⟨"small"⟩ } }

/-- A domain state of `exampleApi`: the domain `domain-1` of `instance-1`, with
the port still to be read. -/
def exampleDomainState : DomainResourceModel :=
  { ID := .known "domain-1"
    Name := .known "www.example"
    Verified := .known false
    InstancePort := .unknown
    Type_ := .known "subdomain"
    InstanceID := .known "instance-1" }

/-- A decoder that accepts the one text `event` and rejects every other text. -/
def exampleUnmarshal (text : String) : Except String ResponseData :=
  if text = "event" then
    .ok { Type_ := 1
          Data := { DeploymentStatus := "Deployed", LatestUrlPreview := "app.example"
                    ProviderHost := "provider.example"
                    Ports := some [⟨8080, 80⟩, ⟨3000, 31000⟩] }
          Session := "" }
  else .error "invalid character"

/-- An instance plan with two ports, two plain and one secret environment
variable, and a health check on `/health`, container port 8080. -/
def exampleInstancePlan : InstanceResourceModel :=
  { Image := .known "nginx"
    Tag := .known "latest"
    ClusterName := .known "cluster-a"
    Ports := some [⟨.known 8080, .known 80⟩, ⟨.known 3000, .unknown⟩]
    Env := some [⟨.known "A", .known "1"⟩, ⟨.known "B", .known ""⟩]
    EnvSecret := some [⟨.known "KEY", .known "s=t"⟩]
    Commands := none
    Args := none
    Region := .known ""
    MachineImage := .known "small"
    Id := .unknown
    HealthCheck := .known ⟨.known 8080, .known "/health"⟩ }

/-- An order whose preview URL is the `host:port` text of its second port, while
its first port is exposed on port 80; the exposed ports are distinct. -/
def previewCollisionOrder : client.InstanceOrder :=
  { ProtocolData := some ⟨"provider.example"⟩
    URLPreview := "provider.example:31000"
    ClusterInstanceConfiguration :=
      { Image := "nginx", Tag := "latest"
        Ports := some [⟨8080, 80⟩, ⟨3000, 31000⟩]
        Env := none, Command := none, Args := none, Region := "any"
        AgreedMachineImage := ⟨"small"⟩ } }

/-- An order with the single port `3000 -> 31000`, no port exposed on 80, and a
preview URL equal to the `host:port` text of that port. -/
def previewOnlyOrder : client.InstanceOrder :=
  { ProtocolData := some ⟨"provider.example"⟩
    URLPreview := "provider.example:31000"
    ClusterInstanceConfiguration :=
      { Image := "nginx", Tag := "latest"
        Ports := some [⟨3000, 31000⟩]
        Env := none, Command := none, Args := none, Region := "any"
        AgreedMachineImage := ⟨"small"⟩ } }

/-- A `State.Set` for the examples, behaving as the framework does on the set
attributes `env` and `env_secret`: a value in which one of them has a repeated
element is refused with the error `Duplicate Set Element`, whose detail here
names the attribute, and every other value is stored. -/
def refuseDuplicateSetElements (state : InstanceResourceModel) : List Diagnostic :=
  (if state.Env.elems.Nodup then [] else [⟨"Duplicate Set Element", "env"⟩]) ++
  (if state.EnvSecret.elems.Nodup then [] else [⟨"Duplicate Set Element", "env_secret"⟩])

/-- The order `exampleOrder` with the remote environment list `A=1`, `A=1`. -/
def duplicateEnvOrder : client.InstanceOrder :=
  { exampleOrder with
    ClusterInstanceConfiguration :=
      { exampleOrder.ClusterInstanceConfiguration with
        Env := some [⟨"A=1", false⟩, ⟨"A=1", false⟩] } }

/-- The client `exampleApi` with `duplicateEnvOrder` as the order of the instance. -/
def duplicateEnvApi : client.SpheronApi :=
  { exampleApi with GetClusterInstanceOrder := fun _ => .ok duplicateEnvOrder }

/-- A prior state of the instance `instance-1`. -/
def exampleInstanceState : InstanceResourceModel :=
  { exampleInstancePlan with Id := .known "instance-1" }

/-! # Properties -/

/-! ## Decimal formatting is injective -/

theorem digitChar_toNat_sub (k : Nat) (hk : k < 10) : (Nat.digitChar k).toNat - 48 = k := by
  interval_cases k <;> rfl

theorem digitChar_ne_minus (k : Nat) (hk : k < 10) : Nat.digitChar k ≠ '-' := by
  interval_cases k <;> decide

theorem decimalValue_snoc (l : List Char) (c : Char) :
    decimalValue (l ++ [c]) = decimalValue l * 10 + (c.toNat - 48) := by
  simp [decimalValue, List.foldl_append]

/-- What `Nat.toDigitsCore 10` puts in front of its accumulator, with enough fuel:
digits whose value is `n`, none of them a minus sign. -/
theorem toDigitsCore_spec (fuel : Nat) :
    ∀ (n : Nat) (ds : List Char), n < fuel →
      ∃ l, Nat.toDigitsCore 10 fuel n ds = l ++ ds ∧ decimalValue l = n ∧ ∀ c ∈ l, c ≠ '-' := by
  induction fuel with
  | zero => intro n ds h; omega
  | succ fuel ih =>
    intro n ds h
    rw [Nat.toDigitsCore]
    by_cases h0 : n / 10 = 0
    · refine ⟨[Nat.digitChar (n % 10)], ?_, ?_, ?_⟩
      · simp [h0]
      · have hd := digitChar_toNat_sub (n % 10) (Nat.mod_lt _ (by decide))
        have hn : n % 10 = n := by omega
        simp only [decimalValue, List.foldl_cons, List.foldl_nil, hd]
        omega
      · intro c hc
        simp only [List.mem_singleton] at hc
        rw [hc]
        exact digitChar_ne_minus _ (Nat.mod_lt _ (by decide))
    · obtain ⟨l, hl, hv, hm⟩ := ih (n / 10) (Nat.digitChar (n % 10) :: ds) (by omega)
      refine ⟨l ++ [Nat.digitChar (n % 10)], ?_, ?_, ?_⟩
      · simp [h0, hl]
      · rw [decimalValue_snoc, hv, digitChar_toNat_sub _ (Nat.mod_lt _ (by decide))]
        omega
      · intro c hc
        rcases List.mem_append.1 hc with hc | hc
        · exact hm c hc
        · simp only [List.mem_singleton] at hc
          rw [hc]
          exact digitChar_ne_minus _ (Nat.mod_lt _ (by decide))

theorem decimalValue_toDigits (n : Nat) : decimalValue (Nat.toDigits 10 n) = n := by
  obtain ⟨l, hl, hv, _⟩ := toDigitsCore_spec (n + 1) n [] (by omega)
  rw [Nat.toDigits, hl, List.append_nil, hv]

theorem minus_not_mem_toDigits (n : Nat) : '-' ∉ Nat.toDigits 10 n := by
  obtain ⟨l, hl, _, hm⟩ := toDigitsCore_spec (n + 1) n [] (by omega)
  rw [Nat.toDigits, hl, List.append_nil]
  intro h
  exact hm _ h rfl

theorem natRepr_data (n : Nat) : (toString n).data = Nat.toDigits 10 n := rfl

theorem intToString_ofNat (n : Nat) : (toString (Int.ofNat n)).data = Nat.toDigits 10 n := rfl

theorem intToString_negSucc (n : Nat) :
    (toString (Int.negSucc n)).data = '-' :: Nat.toDigits 10 (n + 1) := rfl

/-- `%d` is injective: two integers with the same decimal text are equal. -/
theorem intToString_injective (a b : Int) (h : toString a = toString b) : a = b := by
  have hd : (toString a).data = (toString b).data := by rw [h]
  cases a with
  | ofNat m =>
    cases b with
    | ofNat k =>
      rw [intToString_ofNat, intToString_ofNat] at hd
      have := congrArg decimalValue hd
      rw [decimalValue_toDigits, decimalValue_toDigits] at this
      rw [this]
    | negSucc k =>
      rw [intToString_ofNat, intToString_negSucc] at hd
      exact absurd (hd ▸ List.mem_cons_self _ _) (minus_not_mem_toDigits m)
  | negSucc m =>
    cases b with
    | ofNat k =>
      rw [intToString_ofNat, intToString_negSucc] at hd
      exact absurd (hd ▸ List.mem_cons_self _ _) (minus_not_mem_toDigits k)
    | negSucc k =>
      rw [intToString_negSucc, intToString_negSucc] at hd
      have := congrArg decimalValue (List.tail_eq_of_cons_eq hd)
      rw [decimalValue_toDigits, decimalValue_toDigits] at this
      have hmk : m = k := by omega
      rw [hmk]

theorem sprintfHostPort_data (host : String) (port : Int) :
    (sprintfHostPort host port).data = host.data ++ ':' :: (toString port).data := by
  simp [sprintfHostPort, String.data_append]

theorem sprintfHostPort_injective (host : String) (a b : Int)
    (h : sprintfHostPort host a = sprintfHostPort host b) : a = b := by
  have hd : (sprintfHostPort host a).data = (sprintfHostPort host b).data := by rw [h]
  rw [sprintfHostPort_data, sprintfHostPort_data] at hd
  have h2 := List.append_cancel_left hd
  have h3 : (toString a).data = (toString b).data := List.tail_eq_of_cons_eq h2
  exact intToString_injective a b (String.ext h3)

theorem sprintfHostPort_ne_empty (host : String) (port : Int) :
    sprintfHostPort host port ≠ "" := by
  intro h
  have hd : (sprintfHostPort host port).data = ("" : String).data := by rw [h]
  rw [sprintfHostPort_data] at hd
  simp at hd

/-! ## `getInstanceDeploymentURL` and `getPortFromDeploymentURL` -/

theorem getInstanceDeploymentURL_loop_none (host URLPreview : String) (desiredPort : Int)
    (l : List client.Port) :
    getInstanceDeploymentURL.loop host URLPreview desiredPort l = none ↔
      ∀ q ∈ l, q.ContainerPort ≠ desiredPort := by
  induction l with
  | nil => simp [getInstanceDeploymentURL.loop]
  | cons port rest ih =>
    unfold getInstanceDeploymentURL.loop
    by_cases hc : port.ContainerPort = desiredPort
    · by_cases he : port.ExposedPort = 80 ∧ URLPreview ≠ "" <;> simp [hc, he]
    · simp [hc, ih]

theorem getInstanceDeploymentURL_loop_first (host URLPreview : String) (desiredPort : Int)
    (before after : List client.Port) (port : client.Port)
    (hbefore : ∀ q ∈ before, q.ContainerPort ≠ desiredPort)
    (hport : port.ContainerPort = desiredPort) :
    getInstanceDeploymentURL.loop host URLPreview desiredPort (before ++ port :: after) =
      some (if port.ExposedPort = 80 ∧ URLPreview ≠ "" then URLPreview
            else sprintfHostPort host port.ExposedPort) := by
  induction before with
  | nil =>
    simp only [List.nil_append]
    unfold getInstanceDeploymentURL.loop
    by_cases he : port.ExposedPort = 80 ∧ URLPreview ≠ "" <;> simp [hport, he]
  | cons q rest ih =>
    have hq : q.ContainerPort ≠ desiredPort := hbefore q (List.mem_cons_self _ _)
    simp only [List.cons_append]
    unfold getInstanceDeploymentURL.loop
    simp only [hq, if_false]
    exact ih (fun x hx => hbefore x (List.mem_cons_of_mem _ hx))

theorem getInstanceDeploymentURL_loop_some (host URLPreview : String) (desiredPort : Int)
    (l : List client.Port) (url : String)
    (h : getInstanceDeploymentURL.loop host URLPreview desiredPort l = some url) :
    ∃ port ∈ l, port.ContainerPort = desiredPort ∧
      url = (if port.ExposedPort = 80 ∧ URLPreview ≠ "" then URLPreview
             else sprintfHostPort host port.ExposedPort) := by
  induction l with
  | nil => simp [getInstanceDeploymentURL.loop] at h
  | cons port rest ih =>
    unfold getInstanceDeploymentURL.loop at h
    by_cases hc : port.ContainerPort = desiredPort
    · refine ⟨port, List.mem_cons_self _ _, hc, ?_⟩
      by_cases he : port.ExposedPort = 80 ∧ URLPreview ≠ ""
      · rw [if_pos hc, if_pos he] at h
        rw [if_pos he]
        exact (Option.some.inj h).symm
      · rw [if_pos hc, if_neg he] at h
        rw [if_neg he]
        exact (Option.some.inj h).symm
    · rw [if_neg hc] at h
      obtain ⟨q, hq, hqc, hqu⟩ := ih h
      exact ⟨q, List.mem_cons_of_mem _ hq, hqc, hqu⟩

theorem getInstanceDeploymentURL_loop_ne_empty (host URLPreview : String) (desiredPort : Int)
    (l : List client.Port) (url : String)
    (h : getInstanceDeploymentURL.loop host URLPreview desiredPort l = some url) :
    url ≠ "" := by
  obtain ⟨port, _, _, hu⟩ := getInstanceDeploymentURL_loop_some host URLPreview desiredPort l url h
  by_cases he : port.ExposedPort = 80 ∧ URLPreview ≠ ""
  · rw [if_pos he] at hu
    rw [hu]
    exact he.2
  · rw [if_neg he] at hu
    rw [hu]
    exact sprintfHostPort_ne_empty _ _

/-- The empty URL characterised: `getInstanceDeploymentURL` returns `""` exactly
when there is no protocol data, no provider host, or no port with the desired
container port. -/
theorem getInstanceDeploymentURL_eq_empty_iff (input : client.InstanceOrder) (desiredPort : Int) :
    getInstanceDeploymentURL input desiredPort = "" ↔
      (input.ProtocolData = none ∨
       input.ProtocolData.map (fun pd => pd.ProviderHost) = some "" ∨
       ∀ q ∈ input.ClusterInstanceConfiguration.Ports.elems, q.ContainerPort ≠ desiredPort) := by
  unfold getInstanceDeploymentURL
  cases hpd : input.ProtocolData with
  | none => simp
  | some pd =>
    by_cases hh : pd.ProviderHost = ""
    · simp [hh]
    · simp only [ne_eq, hh, not_false_eq_true, if_true, Option.map_some', Option.some.injEq,
        false_or, reduceCtorEq]
      cases hl : getInstanceDeploymentURL.loop pd.ProviderHost input.URLPreview desiredPort
          input.ClusterInstanceConfiguration.Ports.elems with
      | none =>
        simp only [true_iff]
        exact (getInstanceDeploymentURL_loop_none _ _ _ _).1 hl
      | some url =>
        have hne := getInstanceDeploymentURL_loop_ne_empty _ _ _ _ _ hl
        constructor
        · intro h; exact absurd h hne
        · intro h
          rw [(getInstanceDeploymentURL_loop_none _ _ _ _).2 h] at hl
          cases hl

/-- C2: when the protocol data is present with a non-empty provider host and some
configured port has the desired container port, `getInstanceDeploymentURL`
answers for the first such port in list order: the preview URL when that port is
exposed on 80 and the preview URL is non-empty, and otherwise
`<ProviderHost>:<ExposedPort>` with the exposed port in decimal. -/
theorem getInstanceDeploymentURL_first_match (input : client.InstanceOrder) (desiredPort : Int)
    (pd : client.ProtocolData)
    (hpd : input.ProtocolData = some pd) (hhost : pd.ProviderHost ≠ "")
    (hmem : ∃ q ∈ input.ClusterInstanceConfiguration.Ports.elems,
      q.ContainerPort = desiredPort) :
    ∃ before port after,
      input.ClusterInstanceConfiguration.Ports.elems = before ++ port :: after ∧
      (∀ q ∈ before, q.ContainerPort ≠ desiredPort) ∧
      port.ContainerPort = desiredPort ∧
      getInstanceDeploymentURL input desiredPort =
        (if port.ExposedPort = 80 ∧ input.URLPreview ≠ "" then input.URLPreview
         else pd.ProviderHost ++ ":" ++ toString port.ExposedPort) := by
  obtain ⟨q, hq, hqc⟩ := hmem
  have hfind : ∃ a, List.find? (fun x => decide (x.ContainerPort = desiredPort))
      input.ClusterInstanceConfiguration.Ports.elems = some a := by
    cases hf : List.find? (fun x => decide (x.ContainerPort = desiredPort))
        input.ClusterInstanceConfiguration.Ports.elems with
    | none =>
      rw [List.find?_eq_none] at hf
      exact absurd (by simpa using hqc) (hf q hq)
    | some a => exact ⟨a, rfl⟩
  obtain ⟨port, hport⟩ := hfind
  rw [List.find?_eq_some] at hport
  obtain ⟨hp, before, after, hsplit, hbefore⟩ := hport
  have hp' : port.ContainerPort = desiredPort := by simpa using hp
  have hbefore' : ∀ x ∈ before, x.ContainerPort ≠ desiredPort := by
    intro x hx
    simpa using hbefore x hx
  refine ⟨before, port, after, hsplit, hbefore', hp', ?_⟩
  unfold getInstanceDeploymentURL
  rw [hpd]
  simp only [ne_eq, hhost, not_false_eq_true, if_true]
  rw [hsplit, getInstanceDeploymentURL_loop_first _ _ _ _ _ _ hbefore' hp']
  rfl

/-- C2, at an order with ports `8080 -> 80` and `3000 -> 31000`: the URL for
container port 3000 is `provider.example:31000`. -/
theorem getInstanceDeploymentURL_first_match_witness :
    ∃ before port after,
      exampleOrder.ClusterInstanceConfiguration.Ports.elems = before ++ port :: after ∧
      (∀ q ∈ before, q.ContainerPort ≠ 3000) ∧
      port.ContainerPort = 3000 ∧
      getInstanceDeploymentURL exampleOrder 3000 =
        (if port.ExposedPort = 80 ∧ exampleOrder.URLPreview ≠ "" then exampleOrder.URLPreview
         else "provider.example" ++ ":" ++ toString port.ExposedPort) :=
  getInstanceDeploymentURL_first_match exampleOrder 3000 ⟨"provider.example"⟩ rfl (by decide)
    ⟨⟨3000, 31000⟩, by decide, rfl⟩

theorem getPortFromDeploymentURL_loop_none (host URLPreview urlStr : String)
    (l : List client.Port) :
    getPortFromDeploymentURL.loop host URLPreview urlStr l = none ↔
      ∀ q ∈ l, ¬ ((urlStr = URLPreview ∧ q.ExposedPort = 80) ∨
        urlStr = host ++ ":" ++ toString q.ExposedPort) := by
  induction l with
  | nil => simp [getPortFromDeploymentURL.loop]
  | cons port rest ih =>
    unfold getPortFromDeploymentURL.loop
    by_cases h1 : urlStr = URLPreview ∧ port.ExposedPort = 80
    · rw [if_pos h1]
      simp only [reduceCtorEq, List.mem_cons, forall_eq_or_imp, false_iff, not_and]
      intro hn
      exact absurd (Or.inl h1) hn
    · rw [if_neg h1]
      by_cases h2 : urlStr = sprintfHostPort host port.ExposedPort
      · rw [if_pos h2]
        simp only [reduceCtorEq, List.mem_cons, forall_eq_or_imp, false_iff, not_and]
        intro hn
        exact absurd (Or.inr h2) hn
      · rw [if_neg h2, ih]
        simp only [List.mem_cons, forall_eq_or_imp]
        constructor
        · intro h
          exact ⟨fun hm => hm.elim h1 h2, h⟩
        · intro h
          exact h.2

theorem getPortFromDeploymentURL_loop_first (host URLPreview urlStr : String)
    (before after : List client.Port) (port : client.Port)
    (hbefore : ∀ q ∈ before, ¬ ((urlStr = URLPreview ∧ q.ExposedPort = 80) ∨
        urlStr = host ++ ":" ++ toString q.ExposedPort))
    (hport : (urlStr = URLPreview ∧ port.ExposedPort = 80) ∨
        urlStr = host ++ ":" ++ toString port.ExposedPort) :
    getPortFromDeploymentURL.loop host URLPreview urlStr (before ++ port :: after) =
      some port.ContainerPort := by
  induction before with
  | nil =>
    simp only [List.nil_append]
    unfold getPortFromDeploymentURL.loop
    by_cases h1 : urlStr = URLPreview ∧ port.ExposedPort = 80
    · rw [if_pos h1]
    · rw [if_neg h1]
      have h2 : urlStr = sprintfHostPort host port.ExposedPort := hport.resolve_left h1
      rw [if_pos h2]
  | cons q rest ih =>
    have hq := hbefore q (List.mem_cons_self _ _)
    have h1 : ¬ (urlStr = URLPreview ∧ q.ExposedPort = 80) := fun h => hq (Or.inl h)
    have h2 : ¬ (urlStr = sprintfHostPort host q.ExposedPort) := fun h => hq (Or.inr h)
    simp only [List.cons_append]
    unfold getPortFromDeploymentURL.loop
    rw [if_neg h1, if_neg h2]
    exact ih (fun x hx => hbefore x (List.mem_cons_of_mem _ hx))

theorem getPortFromDeploymentURL_loop_some (host URLPreview urlStr : String)
    (l : List client.Port) (p : Int)
    (h : getPortFromDeploymentURL.loop host URLPreview urlStr l = some p) :
    ∃ q ∈ l, ((urlStr = URLPreview ∧ q.ExposedPort = 80) ∨
        urlStr = host ++ ":" ++ toString q.ExposedPort) ∧ q.ContainerPort = p := by
  induction l with
  | nil => simp [getPortFromDeploymentURL.loop] at h
  | cons port rest ih =>
    unfold getPortFromDeploymentURL.loop at h
    by_cases h1 : urlStr = URLPreview ∧ port.ExposedPort = 80
    · rw [if_pos h1] at h
      exact ⟨port, List.mem_cons_self _ _, Or.inl h1, Option.some.inj h⟩
    · rw [if_neg h1] at h
      by_cases h2 : urlStr = sprintfHostPort host port.ExposedPort
      · rw [if_pos h2] at h
        exact ⟨port, List.mem_cons_self _ _, Or.inr h2, Option.some.inj h⟩
      · rw [if_neg h2] at h
        obtain ⟨q, hq, hm, hc⟩ := ih h
        exact ⟨q, List.mem_cons_of_mem _ hq, hm, hc⟩

/-- C4: `getPortFromDeploymentURL` returns, without error, the container port of
the first port in list order that matches the URL (the URL is the preview URL
and the port is exposed on 80, or the URL is `<ProviderHost>:<ExposedPort>`); it
returns port 0 with the error "no matching port found for the provided URL"
exactly when the protocol data is nil, the provider host is empty, or no port
matches; and it returns nothing else. -/
theorem getPortFromDeploymentURL_spec (input : client.InstanceOrder) (urlStr : String) :
    (∀ pd before port after,
      input.ProtocolData = some pd → pd.ProviderHost ≠ "" →
      input.ClusterInstanceConfiguration.Ports.elems = before ++ port :: after →
      (∀ q ∈ before, ¬ ((urlStr = input.URLPreview ∧ q.ExposedPort = 80) ∨
        urlStr = pd.ProviderHost ++ ":" ++ toString q.ExposedPort)) →
      ((urlStr = input.URLPreview ∧ port.ExposedPort = 80) ∨
        urlStr = pd.ProviderHost ++ ":" ++ toString port.ExposedPort) →
      getPortFromDeploymentURL input urlStr = (port.ContainerPort, none)) ∧
    (getPortFromDeploymentURL input urlStr =
        (0, some "no matching port found for the provided URL") ↔
      (input.ProtocolData = none ∨
       input.ProtocolData.map (fun pd => pd.ProviderHost) = some "" ∨
       ∀ pd, input.ProtocolData = some pd →
         ∀ q ∈ input.ClusterInstanceConfiguration.Ports.elems,
           ¬ ((urlStr = input.URLPreview ∧ q.ExposedPort = 80) ∨
             urlStr = pd.ProviderHost ++ ":" ++ toString q.ExposedPort))) ∧
    ((getPortFromDeploymentURL input urlStr).2 = none ∨
      getPortFromDeploymentURL input urlStr =
        (0, some "no matching port found for the provided URL")) := by
  refine ⟨?_, ?_, ?_⟩
  · intro pd before port after hpd hhost hsplit hbefore hport
    unfold getPortFromDeploymentURL
    rw [hpd]
    simp only [ne_eq, hhost, not_false_eq_true, if_true]
    rw [hsplit, getPortFromDeploymentURL_loop_first _ _ _ _ _ _ hbefore hport]
  · unfold getPortFromDeploymentURL
    cases hpd : input.ProtocolData with
    | none => simp [noMatchingPort]
    | some pd =>
      by_cases hh : pd.ProviderHost = ""
      · simp [hh, noMatchingPort]
      · simp only [ne_eq, hh, not_false_eq_true, if_true, Option.map_some', Option.some.injEq,
          false_or, reduceCtorEq, forall_eq']
        cases hl : getPortFromDeploymentURL.loop pd.ProviderHost input.URLPreview urlStr
            input.ClusterInstanceConfiguration.Ports.elems with
        | none =>
          simp only [noMatchingPort, true_iff]
          exact (getPortFromDeploymentURL_loop_none _ _ _ _).1 hl
        | some p =>
          constructor
          · intro h
            simp at h
          · intro h
            rw [(getPortFromDeploymentURL_loop_none _ _ _ _).2 h] at hl
            cases hl
  · unfold getPortFromDeploymentURL
    cases hpd : input.ProtocolData with
    | none => right; rfl
    | some pd =>
      by_cases hh : pd.ProviderHost = ""
      · right; simp [hh, noMatchingPort]
      · simp only [ne_eq, hh, not_false_eq_true, if_true]
        cases hl : getPortFromDeploymentURL.loop pd.ProviderHost input.URLPreview urlStr
            input.ClusterInstanceConfiguration.Ports.elems with
        | none => right; rfl
        | some p => left; rfl

/-- C4, at an order with ports `8080 -> 80` and `3000 -> 31000`: the URL
`provider.example:31000` is matched by the second port only and gives 3000. -/
theorem getPortFromDeploymentURL_spec_witness :
    getPortFromDeploymentURL exampleOrder "provider.example:31000" = (3000, none) :=
  (getPortFromDeploymentURL_spec exampleOrder "provider.example:31000").1
    ⟨"provider.example"⟩ [⟨8080, 80⟩] ⟨3000, 31000⟩ [] rfl (by decide) rfl
    (by decide) (by decide)

/-! ## Domain `Create` and `Update` -/

theorem DomainResource.Create_of_order (r : client.SpheronApi) (plan : DomainResourceModel)
    (inst : client.Instance) (order : client.InstanceOrder)
    (hvalid : isValidDomainType plan.Type_.ValueString = true)
    (hinst : r.GetClusterInstance plan.InstanceID.ValueString = .ok inst)
    (horder : r.GetClusterInstanceOrder inst.ActiveOrder = .ok order) :
    DomainResource.Create r plan =
      if getInstanceDeploymentURL order plan.InstancePort.ValueInt64 = "" then
        ⟨[⟨unableToCreateDomainForInstance, unableToCreateDomainForInstance⟩], none,
          [.GetClusterInstance plan.InstanceID.ValueString,
           .GetClusterInstanceOrder inst.ActiveOrder]⟩
      else
        match r.AddClusterInstanceDomain plan.InstanceID.ValueString
            { Name := plan.Name.ValueString, Type_ := plan.Type_.ValueString,
              Link := getInstanceDeploymentURL order plan.InstancePort.ValueInt64 } with
        | .error err =>
          ⟨[⟨"Unable to create domain", err⟩], none,
            [.GetClusterInstance plan.InstanceID.ValueString,
             .GetClusterInstanceOrder inst.ActiveOrder,
             .AddClusterInstanceDomain plan.InstanceID.ValueString
               { Name := plan.Name.ValueString, Type_ := plan.Type_.ValueString,
                 Link := getInstanceDeploymentURL order plan.InstancePort.ValueInt64 }]⟩
        | .ok domain =>
          ⟨[], some { plan with ID := .known domain.ID, Verified := .known domain.Verified },
            [.GetClusterInstance plan.InstanceID.ValueString,
             .GetClusterInstanceOrder inst.ActiveOrder,
             .AddClusterInstanceDomain plan.InstanceID.ValueString
               { Name := plan.Name.ValueString, Type_ := plan.Type_.ValueString,
                 Link := getInstanceDeploymentURL order plan.InstancePort.ValueInt64 }]⟩ := by
  unfold DomainResource.Create
  simp only [hvalid, not_true_eq_false, if_false, hinst, horder]

theorem DomainResource.Update_of_order (r : client.SpheronApi) (plan : DomainResourceModel)
    (inst : client.Instance) (order : client.InstanceOrder)
    (hvalid : isValidDomainType plan.Type_.ValueString = true)
    (hinst : r.GetClusterInstance plan.InstanceID.ValueString = .ok inst)
    (horder : r.GetClusterInstanceOrder inst.ActiveOrder = .ok order) :
    DomainResource.Update r plan =
      if getInstanceDeploymentURL order plan.InstancePort.ValueInt64 = "" then
        ⟨[⟨unableToCreateDomainForInstance, unableToCreateDomainForInstance⟩], none,
          [.GetClusterInstance plan.InstanceID.ValueString,
           .GetClusterInstanceOrder inst.ActiveOrder]⟩
      else
        match r.UpdateClusterInstanceDomain plan.InstanceID.ValueString plan.ID.ValueString
            { Name := plan.Name.ValueString, Type_ := plan.Type_.ValueString,
              Link := getInstanceDeploymentURL order plan.InstancePort.ValueInt64 } with
        | .error err =>
          ⟨[⟨"Unable to create domain", err⟩], none,
            [.GetClusterInstance plan.InstanceID.ValueString,
             .GetClusterInstanceOrder inst.ActiveOrder,
             .UpdateClusterInstanceDomain plan.InstanceID.ValueString plan.ID.ValueString
               { Name := plan.Name.ValueString, Type_ := plan.Type_.ValueString,
                 Link := getInstanceDeploymentURL order plan.InstancePort.ValueInt64 }]⟩
        | .ok domain =>
          ⟨[], some { plan with Verified := .known domain.Verified },
            [.GetClusterInstance plan.InstanceID.ValueString,
             .GetClusterInstanceOrder inst.ActiveOrder,
             .UpdateClusterInstanceDomain plan.InstanceID.ValueString plan.ID.ValueString
               { Name := plan.Name.ValueString, Type_ := plan.Type_.ValueString,
                 Link := getInstanceDeploymentURL order plan.InstancePort.ValueInt64 }]⟩ := by
  unfold DomainResource.Update
  simp only [hvalid, not_true_eq_false, if_false, hinst, horder]

/-- Every domain request `Create` submits has a non-empty link. -/
theorem DomainResource.Create_link_ne_empty (r : client.SpheronApi)
    (plan : DomainResourceModel) (instanceID : String) (request : client.DomainRequest)
    (h : ApiCall.AddClusterInstanceDomain instanceID request ∈
      (DomainResource.Create r plan).calls) : request.Link ≠ "" := by
  by_cases hv : isValidDomainType plan.Type_.ValueString = true
  · cases hi : r.GetClusterInstance plan.InstanceID.ValueString with
    | error e => simp [DomainResource.Create, hv, hi] at h
    | ok inst =>
      cases ho : r.GetClusterInstanceOrder inst.ActiveOrder with
      | error e => simp [DomainResource.Create, hv, hi, ho] at h
      | ok order =>
        rw [DomainResource.Create_of_order r plan inst order hv hi ho] at h
        by_cases hu : getInstanceDeploymentURL order plan.InstancePort.ValueInt64 = ""
        · rw [if_pos hu] at h
          simp at h
        · rw [if_neg hu] at h
          cases ha : r.AddClusterInstanceDomain plan.InstanceID.ValueString
              { Name := plan.Name.ValueString, Type_ := plan.Type_.ValueString,
                Link := getInstanceDeploymentURL order plan.InstancePort.ValueInt64 } <;>
          · simp only [ha, List.mem_cons, reduceCtorEq, ApiCall.AddClusterInstanceDomain.injEq,
              false_or, List.mem_nil_iff, List.not_mem_nil, or_false] at h
            rw [h.2]
            exact hu
  · simp [DomainResource.Create, hv] at h

/-- Every domain request `Update` submits has a non-empty link. -/
theorem DomainResource.Update_link_ne_empty (r : client.SpheronApi)
    (plan : DomainResourceModel) (instanceID domainID : String)
    (request : client.DomainRequest)
    (h : ApiCall.UpdateClusterInstanceDomain instanceID domainID request ∈
      (DomainResource.Update r plan).calls) : request.Link ≠ "" := by
  by_cases hv : isValidDomainType plan.Type_.ValueString = true
  · cases hi : r.GetClusterInstance plan.InstanceID.ValueString with
    | error e => simp [DomainResource.Update, hv, hi] at h
    | ok inst =>
      cases ho : r.GetClusterInstanceOrder inst.ActiveOrder with
      | error e => simp [DomainResource.Update, hv, hi, ho] at h
      | ok order =>
        rw [DomainResource.Update_of_order r plan inst order hv hi ho] at h
        by_cases hu : getInstanceDeploymentURL order plan.InstancePort.ValueInt64 = ""
        · rw [if_pos hu] at h
          simp at h
        · rw [if_neg hu] at h
          cases ha : r.UpdateClusterInstanceDomain plan.InstanceID.ValueString
              plan.ID.ValueString
              { Name := plan.Name.ValueString, Type_ := plan.Type_.ValueString,
                Link := getInstanceDeploymentURL order plan.InstancePort.ValueInt64 } <;>
          · simp only [ha, List.mem_cons, reduceCtorEq,
              ApiCall.UpdateClusterInstanceDomain.injEq,
              false_or, List.mem_nil_iff, List.not_mem_nil, or_false] at h
            rw [h.2.2]
            exact hu
  · simp [DomainResource.Update, hv] at h

/-- C3: `getInstanceDeploymentURL` returns the empty string exactly when the
protocol data is nil, the provider host is empty, or no configured port has the
desired container port. Hence, for a plan of a supported type whose instance and
order were fetched, domain `Create` and `Update` add the error "Unable to create
domain for instance" exactly in those cases, and then stop after the two reads
without writing state; and no domain request they submit has an empty link. -/
theorem getInstanceDeploymentURL_empty_iff (input : client.InstanceOrder) (desiredPort : Int) :
    (getInstanceDeploymentURL input desiredPort = "" ↔
      (input.ProtocolData = none ∨
       input.ProtocolData.map (fun pd => pd.ProviderHost) = some "" ∨
       ∀ q ∈ input.ClusterInstanceConfiguration.Ports.elems, q.ContainerPort ≠ desiredPort)) ∧
    (∀ (r : client.SpheronApi) (plan : DomainResourceModel) (inst : client.Instance),
      isValidDomainType plan.Type_.ValueString = true →
      r.GetClusterInstance plan.InstanceID.ValueString = .ok inst →
      r.GetClusterInstanceOrder inst.ActiveOrder = .ok input →
      plan.InstancePort.ValueInt64 = desiredPort →
      (((∃ d ∈ (DomainResource.Create r plan).Diagnostics,
            d.summary = "Unable to create domain for instance") ↔
          (input.ProtocolData = none ∨
           input.ProtocolData.map (fun pd => pd.ProviderHost) = some "" ∨
           ∀ q ∈ input.ClusterInstanceConfiguration.Ports.elems,
             q.ContainerPort ≠ desiredPort)) ∧
       ((∃ d ∈ (DomainResource.Update r plan).Diagnostics,
            d.summary = "Unable to create domain for instance") ↔
          (input.ProtocolData = none ∨
           input.ProtocolData.map (fun pd => pd.ProviderHost) = some "" ∨
           ∀ q ∈ input.ClusterInstanceConfiguration.Ports.elems,
             q.ContainerPort ≠ desiredPort)) ∧
       (getInstanceDeploymentURL input desiredPort = "" →
          DomainResource.Create r plan =
            ⟨[⟨"Unable to create domain for instance", "Unable to create domain for instance"⟩],
              none,
              [.GetClusterInstance plan.InstanceID.ValueString,
               .GetClusterInstanceOrder inst.ActiveOrder]⟩ ∧
          DomainResource.Update r plan =
            ⟨[⟨"Unable to create domain for instance", "Unable to create domain for instance"⟩],
              none,
              [.GetClusterInstance plan.InstanceID.ValueString,
               .GetClusterInstanceOrder inst.ActiveOrder]⟩))) ∧
    (∀ (r : client.SpheronApi) (plan : DomainResourceModel) (instanceID : String)
        (request : client.DomainRequest),
      ApiCall.AddClusterInstanceDomain instanceID request ∈
        (DomainResource.Create r plan).calls → request.Link ≠ "") ∧
    (∀ (r : client.SpheronApi) (plan : DomainResourceModel) (instanceID domainID : String)
        (request : client.DomainRequest),
      ApiCall.UpdateClusterInstanceDomain instanceID domainID request ∈
        (DomainResource.Update r plan).calls → request.Link ≠ "") := by
  refine ⟨getInstanceDeploymentURL_eq_empty_iff input desiredPort, ?_,
    fun r plan instanceID request h => DomainResource.Create_link_ne_empty r plan _ _ h,
    fun r plan instanceID domainID request h =>
      DomainResource.Update_link_ne_empty r plan _ _ _ h⟩
  intro r plan inst hvalid hinst horder hport
  rw [← getInstanceDeploymentURL_eq_empty_iff input desiredPort]
  rw [DomainResource.Create_of_order r plan inst input hvalid hinst horder,
    DomainResource.Update_of_order r plan inst input hvalid hinst horder, hport]
  have hs : ("Unable to create domain" : String) ≠ "Unable to create domain for instance" := by
    decide
  by_cases hu : getInstanceDeploymentURL input desiredPort = ""
  · simp only [hu, if_true, unableToCreateDomainForInstance, List.mem_singleton,
      exists_eq_left, true_iff, and_self, implies_true]
  · simp only [hu, if_false, false_iff, not_exists, not_and, false_implies, and_true]
    constructor
    · rw [iff_false]
      rintro ⟨d, hd, hsum⟩
      revert hsum
      cases ha : r.AddClusterInstanceDomain plan.InstanceID.ValueString
          { Name := plan.Name.ValueString, Type_ := plan.Type_.ValueString,
            Link := getInstanceDeploymentURL input desiredPort } with
      | error e =>
        rw [ha] at hd
        simp only [List.mem_singleton] at hd
        rw [hd]
        exact hs
      | ok domain =>
        rw [ha] at hd
        simp at hd
    · rw [iff_false]
      rintro ⟨d, hd, hsum⟩
      revert hsum
      cases ha : r.UpdateClusterInstanceDomain plan.InstanceID.ValueString plan.ID.ValueString
          { Name := plan.Name.ValueString, Type_ := plan.Type_.ValueString,
            Link := getInstanceDeploymentURL input desiredPort } with
      | error e =>
        rw [ha] at hd
        simp only [List.mem_singleton] at hd
        rw [hd]
        exact hs
      | ok domain =>
        rw [ha] at hd
        simp at hd

/-- C3, at a plan for container port 9999, which `exampleOrder` does not
configure: `Create` stops with "Unable to create domain for instance". -/
theorem getInstanceDeploymentURL_empty_iff_witness :
    (∃ d ∈ (DomainResource.Create exampleApi
        { exampleDomainPlan with InstancePort := .known 9999 }).Diagnostics,
      d.summary = "Unable to create domain for instance") ↔
    (exampleOrder.ProtocolData = none ∨
     exampleOrder.ProtocolData.map (fun pd => pd.ProviderHost) = some "" ∨
     ∀ q ∈ exampleOrder.ClusterInstanceConfiguration.Ports.elems, q.ContainerPort ≠ 9999) :=
  ((getInstanceDeploymentURL_empty_iff exampleOrder 9999).2.1 exampleApi
    { exampleDomainPlan with InstancePort := .known 9999 }
    ⟨"order-1", "cluster-1", ⟨"/health", ⟨8080, 80⟩⟩⟩ (by decide) rfl rfl rfl).1

/-! ## Round trip between container port and deployment URL -/

/-- A non-empty deployment URL comes from a configured port with the desired
container port, under a present protocol data with a non-empty host. -/
theorem getInstanceDeploymentURL_ne_empty (input : client.InstanceOrder) (p : Int)
    (hu : getInstanceDeploymentURL input p ≠ "") :
    ∃ pd, input.ProtocolData = some pd ∧ pd.ProviderHost ≠ "" ∧
      ∃ port ∈ input.ClusterInstanceConfiguration.Ports.elems, port.ContainerPort = p ∧
        getInstanceDeploymentURL input p =
          (if port.ExposedPort = 80 ∧ input.URLPreview ≠ "" then input.URLPreview
           else sprintfHostPort pd.ProviderHost port.ExposedPort) := by
  unfold getInstanceDeploymentURL at hu ⊢
  cases hpd : input.ProtocolData with
  | none => rw [hpd] at hu; exact absurd rfl hu
  | some pd =>
    rw [hpd] at hu
    by_cases hh : pd.ProviderHost = ""
    · simp [hh] at hu
    · refine ⟨pd, rfl, hh, ?_⟩
      simp only [ne_eq, hh, not_false_eq_true, if_true] at hu ⊢
      cases hl : getInstanceDeploymentURL.loop pd.ProviderHost input.URLPreview p
          input.ClusterInstanceConfiguration.Ports.elems with
      | none => rw [hl] at hu; exact absurd rfl hu
      | some url =>
        obtain ⟨port, hmem, hc, hurl⟩ := getInstanceDeploymentURL_loop_some _ _ _ _ _ hl
        exact ⟨port, hmem, hc, hurl⟩

/-- The reverse lookup of a URL the forward lookup produced never fails, and
answers with the container port of a configured port matching that URL. -/
theorem getPortFromDeploymentURL_of_url (input : client.InstanceOrder) (p : Int)
    (hu : getInstanceDeploymentURL input p ≠ "") :
    ∃ pd, input.ProtocolData = some pd ∧
      ∃ port ∈ input.ClusterInstanceConfiguration.Ports.elems, port.ContainerPort = p ∧
        getInstanceDeploymentURL input p =
          (if port.ExposedPort = 80 ∧ input.URLPreview ≠ "" then input.URLPreview
           else sprintfHostPort pd.ProviderHost port.ExposedPort) ∧
      ∃ q ∈ input.ClusterInstanceConfiguration.Ports.elems,
        ((getInstanceDeploymentURL input p = input.URLPreview ∧ q.ExposedPort = 80) ∨
          getInstanceDeploymentURL input p = sprintfHostPort pd.ProviderHost q.ExposedPort) ∧
        getPortFromDeploymentURL input (getInstanceDeploymentURL input p) =
          (q.ContainerPort, none) := by
  obtain ⟨pd, hpd, hh, port, hmem, hc, hurl⟩ := getInstanceDeploymentURL_ne_empty input p hu
  refine ⟨pd, hpd, port, hmem, hc, hurl, ?_⟩
  have hmatch : (getInstanceDeploymentURL input p = input.URLPreview ∧ port.ExposedPort = 80) ∨
      getInstanceDeploymentURL input p = pd.ProviderHost ++ ":" ++ toString port.ExposedPort := by
    by_cases he : port.ExposedPort = 80 ∧ input.URLPreview ≠ ""
    · rw [if_pos he] at hurl
      exact Or.inl ⟨hurl, he.1⟩
    · rw [if_neg he] at hurl
      exact Or.inr hurl
  cases hl : getPortFromDeploymentURL.loop pd.ProviderHost input.URLPreview
      (getInstanceDeploymentURL input p) input.ClusterInstanceConfiguration.Ports.elems with
  | none =>
    exact absurd hmatch ((getPortFromDeploymentURL_loop_none _ _ _ _).1 hl port hmem)
  | some p' =>
    obtain ⟨q, hq, hqm, hqc⟩ := getPortFromDeploymentURL_loop_some _ _ _ _ _ hl
    refine ⟨q, hq, hqm, ?_⟩
    conv_lhs => unfold getPortFromDeploymentURL
    rw [hpd]
    simp only [ne_eq, hh, not_false_eq_true, if_true]
    rw [hl, hqc]

/-- `DomainResource.Read` once its three reads have succeeded. -/
theorem DomainResource.Read_of_order (r : client.SpheronApi) (state : DomainResourceModel)
    (domains : List client.Domain) (inst : client.Instance) (order : client.InstanceOrder)
    (containerPort : Int)
    (hid : state.ID.IsNull = false) (hiid : state.InstanceID.IsNull = false)
    (hdomains : r.GetClusterInstanceDomains state.InstanceID.ValueString = .ok domains)
    (hinst : r.GetClusterInstance state.InstanceID.ValueString = .ok inst)
    (horder : r.GetClusterInstanceOrder inst.ActiveOrder = .ok order)
    (hport : getPortFromDeploymentURL order
      (findDomainByID domains state.ID.ValueString).1.Link = (containerPort, none)) :
    (DomainResource.Read r state).State =
      some { state with
        InstancePort := .known containerPort
        Name := .known (findDomainByID domains state.ID.ValueString).1.Name
        Verified := .known (findDomainByID domains state.ID.ValueString).1.Verified
        Type_ := .known (findDomainByID domains state.ID.ValueString).1.Type_ } := by
  unfold DomainResource.Read
  simp only [hid, hiid, Bool.false_eq_true, or_self, if_false, hdomains, hinst, horder, hport]

/-- A successful run of the loop of `getPortFromDeploymentURL` returned at the
first port in list order that matches the URL. -/
theorem getPortFromDeploymentURL_loop_split (host URLPreview urlStr : String)
    (l : List client.Port) (p : Int)
    (h : getPortFromDeploymentURL.loop host URLPreview urlStr l = some p) :
    ∃ before q after, l = before ++ q :: after ∧
      (∀ x ∈ before, ¬ ((urlStr = URLPreview ∧ x.ExposedPort = 80) ∨
        urlStr = host ++ ":" ++ toString x.ExposedPort)) ∧
      ((urlStr = URLPreview ∧ q.ExposedPort = 80) ∨
        urlStr = host ++ ":" ++ toString q.ExposedPort) ∧
      q.ContainerPort = p := by
  induction l with
  | nil => simp [getPortFromDeploymentURL.loop] at h
  | cons port rest ih =>
    unfold getPortFromDeploymentURL.loop at h
    by_cases h1 : urlStr = URLPreview ∧ port.ExposedPort = 80
    · rw [if_pos h1] at h
      exact ⟨[], port, rest, rfl, by simp, Or.inl h1, Option.some.inj h⟩
    · rw [if_neg h1] at h
      by_cases h2 : urlStr = sprintfHostPort host port.ExposedPort
      · rw [if_pos h2] at h
        exact ⟨[], port, rest, rfl, by simp, Or.inr h2, Option.some.inj h⟩
      · rw [if_neg h2] at h
        obtain ⟨before, q, after, hl, hb, hq, hc⟩ := ih h
        refine ⟨port :: before, q, after, by rw [hl]; rfl, ?_, hq, hc⟩
        intro x hx
        rcases List.mem_cons.1 hx with hx | hx
        · rw [hx]
          exact fun hm => hm.elim h1 h2
        · exact hb x hx

/-- C1, as stated, fails, in two ways. In an order whose container ports 8080
and 3000 are both exposed on port 31000, the URL of container port 3000 is
non-empty and is read back as container port 8080. And in an order with distinct
exposed ports `8080 -> 80` and `3000 -> 31000` whose preview URL is the text
`provider.example:31000`, the URL of container port 3000 is that text, which the
port exposed on 80 matches first, so it is read back as 8080. -/
theorem roundTrip_counterexample :
    (getInstanceDeploymentURL sharedExposedPortOrder 3000 = "provider.example:31000" ∧
     getInstanceDeploymentURL sharedExposedPortOrder 3000 ≠ "" ∧
     getPortFromDeploymentURL sharedExposedPortOrder
       (getInstanceDeploymentURL sharedExposedPortOrder 3000) = (8080, none) ∧
     getPortFromDeploymentURL sharedExposedPortOrder
       (getInstanceDeploymentURL sharedExposedPortOrder 3000) ≠ (3000, none)) ∧
    (getInstanceDeploymentURL previewCollisionOrder 3000 = "provider.example:31000" ∧
     getInstanceDeploymentURL previewCollisionOrder 3000 ≠ "" ∧
     getPortFromDeploymentURL previewCollisionOrder
       (getInstanceDeploymentURL previewCollisionOrder 3000) = (8080, none) ∧
     getPortFromDeploymentURL previewCollisionOrder
       (getInstanceDeploymentURL previewCollisionOrder 3000) ≠ (3000, none)) := by
  decide

/-- C1, amended: whenever `getInstanceDeploymentURL(order, p)` is a non-empty URL
`u`, `getPortFromDeploymentURL(order, u)` returns no error, and it returns `p`
exactly when the first port in list order that matches `u` has container port
`p`. This is so, in particular, when configured ports that share an exposed port
share their container port and a port whose `<ProviderHost>:<ExposedPort>` text
is the preview URL has the container port of every port exposed on 80. Whenever
it returns `p`, a domain `Read` that finds the domain with link `u` writes `p`
as `instance_port`. -/
theorem roundTrip_distinct_exposed (input : client.InstanceOrder) (p : Int)
    (hu : getInstanceDeploymentURL input p ≠ "") :
    (getPortFromDeploymentURL input (getInstanceDeploymentURL input p)).2 = none ∧
    (getPortFromDeploymentURL input (getInstanceDeploymentURL input p) = (p, none) ↔
      ∀ pd before q after,
        input.ProtocolData = some pd →
        input.ClusterInstanceConfiguration.Ports.elems = before ++ q :: after →
        (∀ x ∈ before,
          ¬ ((getInstanceDeploymentURL input p = input.URLPreview ∧ x.ExposedPort = 80) ∨
            getInstanceDeploymentURL input p =
              pd.ProviderHost ++ ":" ++ toString x.ExposedPort)) →
        ((getInstanceDeploymentURL input p = input.URLPreview ∧ q.ExposedPort = 80) ∨
          getInstanceDeploymentURL input p =
            pd.ProviderHost ++ ":" ++ toString q.ExposedPort) →
        q.ContainerPort = p) ∧
    ((∀ q ∈ input.ClusterInstanceConfiguration.Ports.elems,
        ∀ q' ∈ input.ClusterInstanceConfiguration.Ports.elems,
          q.ExposedPort = q'.ExposedPort → q.ContainerPort = q'.ContainerPort) →
     (∀ pd, input.ProtocolData = some pd →
        ∀ q ∈ input.ClusterInstanceConfiguration.Ports.elems,
          ∀ q' ∈ input.ClusterInstanceConfiguration.Ports.elems,
            q'.ExposedPort = 80 →
            input.URLPreview = pd.ProviderHost ++ ":" ++ toString q.ExposedPort →
            q.ContainerPort = q'.ContainerPort) →
     getPortFromDeploymentURL input (getInstanceDeploymentURL input p) = (p, none)) ∧
    (getPortFromDeploymentURL input (getInstanceDeploymentURL input p) = (p, none) →
     ∀ (r : client.SpheronApi) (state : DomainResourceModel) (domains : List client.Domain)
        (inst : client.Instance),
       state.ID.IsNull = false → state.InstanceID.IsNull = false →
       r.GetClusterInstanceDomains state.InstanceID.ValueString = .ok domains →
       r.GetClusterInstance state.InstanceID.ValueString = .ok inst →
       r.GetClusterInstanceOrder inst.ActiveOrder = .ok input →
       (findDomainByID domains state.ID.ValueString).1.Link =
         getInstanceDeploymentURL input p →
       (DomainResource.Read r state).State.map (fun s => s.InstancePort) =
         some (.known p)) := by
  obtain ⟨pd, hpd, port, hmem, hc, hurl, q, hq, hqm, hres⟩ :=
    getPortFromDeploymentURL_of_url input p hu
  obtain ⟨pd', hpd', hh, _⟩ := getInstanceDeploymentURL_ne_empty input p hu
  have hpdeq : pd' = pd := Option.some.inj (hpd'.symm.trans hpd)
  rw [hpdeq] at hh
  have hunfold : ∀ url, getPortFromDeploymentURL input url =
      match getPortFromDeploymentURL.loop pd.ProviderHost input.URLPreview url
          input.ClusterInstanceConfiguration.Ports.elems with
      | some c => (c, none)
      | none => (0, some noMatchingPort) := by
    intro url
    unfold getPortFromDeploymentURL
    rw [hpd]
    simp only [ne_eq, hh, not_false_eq_true, if_true]
  refine ⟨by rw [hres], ?_, ?_, ?_⟩
  · constructor
    · intro hback pd₁ before q₁ after hpd₁ hsplit hbefore hq₁
      have hpd₁eq : pd₁ = pd := Option.some.inj (hpd₁.symm.trans hpd)
      rw [hpd₁eq] at hbefore hq₁
      have hfirst := getPortFromDeploymentURL_loop_first pd.ProviderHost input.URLPreview
        (getInstanceDeploymentURL input p) before after q₁ hbefore hq₁
      rw [hunfold, hsplit, hfirst] at hback
      exact (Prod.mk.inj hback).1
    · intro hall
      cases hl : getPortFromDeploymentURL.loop pd.ProviderHost input.URLPreview
          (getInstanceDeploymentURL input p) input.ClusterInstanceConfiguration.Ports.elems with
      | none =>
        rw [hunfold, hl] at hres
        exact absurd (congrArg Prod.snd hres) (by simp)
      | some c =>
        obtain ⟨before, q₁, after, hsplit, hbefore, hq₁, hc₁⟩ :=
          getPortFromDeploymentURL_loop_split _ _ _ _ _ hl
        rw [hunfold, hl, ← hc₁, hall pd before q₁ after hpd hsplit hbefore hq₁]
  · intro h1 h2
    rw [hres]
    have hqp : q.ContainerPort = p := by
      rw [← hc]
      by_cases he : port.ExposedPort = 80 ∧ input.URLPreview ≠ ""
      · rw [if_pos he] at hurl
        rcases hqm with ⟨_, hq80⟩ | hqs
        · exact h1 q hq port hmem (by rw [hq80, he.1])
        · exact h2 pd hpd q hq port hmem he.1 (hurl.symm.trans hqs)
      · rw [if_neg he] at hurl
        rcases hqm with ⟨hup, hq80⟩ | hqs
        · exact (h2 pd hpd port hmem q hq hq80 (hup.symm.trans hurl)).symm
        · exact h1 q hq port hmem
            (sprintfHostPort_injective pd.ProviderHost _ _ (hqs.symm.trans hurl))
    rw [hqp]
  · intro hback r state domains inst hid hiid hdomains hinst horder hlink
    rw [DomainResource.Read_of_order r state domains inst input p hid hiid hdomains hinst horder
      (by rw [hlink]; exact hback)]
    rfl

/-- C1 amended, at `exampleOrder` and container port 3000: the URL
`provider.example:31000` is read back as 3000, and a domain `Read` writes 3000;
and at an order with the single port `3000 -> 31000` whose preview URL is
`provider.example:31000`, the URL of container port 3000 is read back as 3000. -/
theorem roundTrip_distinct_exposed_witness :
    (getPortFromDeploymentURL exampleOrder (getInstanceDeploymentURL exampleOrder 3000) =
      (3000, none) ∧
     (DomainResource.Read exampleApi exampleDomainState).State.map (fun s => s.InstancePort) =
      some (.known 3000)) ∧
    getPortFromDeploymentURL previewOnlyOrder (getInstanceDeploymentURL previewOnlyOrder 3000) =
      (3000, none) :=
  have h := (roundTrip_distinct_exposed exampleOrder 3000 (by decide)).2.2.1 (by decide)
    (by
      intro pd hpd
      have hpd' : pd = ⟨"provider.example"⟩ := (Option.some.inj hpd).symm
      subst hpd'
      decide)
  ⟨⟨h, (roundTrip_distinct_exposed exampleOrder 3000 (by decide)).2.2.2 h
      exampleApi exampleDomainState
      [⟨"domain-0", "other.example", true, "app.example", "domain"⟩,
       ⟨"domain-1", "www.example", true, "provider.example:31000", "subdomain"⟩]
      ⟨"order-1", "cluster-1", ⟨"/health", ⟨8080, 80⟩⟩⟩ rfl rfl rfl rfl rfl (by decide)⟩,
   (roundTrip_distinct_exposed previewOnlyOrder 3000 (by decide)).2.2.1 (by decide)
    (by
      intro pd hpd
      have hpd' : pd = ⟨"provider.example"⟩ := (Option.some.inj hpd).symm
      subst hpd'
      decide)⟩

/-! ## Domain types -/

/-- C7: `isValidDomainType` accepts exactly the strings "domain" and "subdomain",
case-sensitively; for a plan whose type is anything else, domain `Create` and
`Update` add the single error "DomainType not supported.", call nothing on the
client and write no state. -/
theorem isValidDomainType_iff (v : String) :
    (isValidDomainType v = true ↔ v = "domain" ∨ v = "subdomain") ∧
    (∀ (r : client.SpheronApi) (plan : DomainResourceModel),
      plan.Type_.ValueString = v → ¬ (v = "domain" ∨ v = "subdomain") →
      DomainResource.Create r plan =
        ⟨[⟨"DomainType not supported.",
           "DomainType not supported. Supported domain types are: doain and subdomain."⟩],
          none, []⟩ ∧
      DomainResource.Update r plan =
        ⟨[⟨"DomainType not supported.",
           "DomainType not supported. Supported domain types are: doain and subdomain."⟩],
          none, []⟩) := by
  have hiff : isValidDomainType v = true ↔ v = "domain" ∨ v = "subdomain" := by
    unfold isValidDomainType client.DomainTypeDomain client.DomainTypeSubdomain
    by_cases h : v = "domain" ∨ v = "subdomain"
    · simp [h]
    · simp [h]
  refine ⟨hiff, ?_⟩
  intro r plan hv hn
  have hfalse : ¬ isValidDomainType plan.Type_.ValueString = true := by
    rw [hv, hiff]
    exact hn
  unfold DomainResource.Create DomainResource.Update
  rw [if_pos hfalse, if_pos hfalse]
  exact ⟨rfl, rfl⟩

/-- C7, at the type "Domain" with a capital letter: `Create` stops with
"DomainType not supported." before any call. -/
theorem isValidDomainType_iff_witness :
    DomainResource.Create exampleApi { exampleDomainPlan with Type_ := .known "Domain" } =
      ⟨[⟨"DomainType not supported.",
         "DomainType not supported. Supported domain types are: doain and subdomain."⟩],
        none, []⟩ :=
  ((isValidDomainType_iff "Domain").2 exampleApi
    { exampleDomainPlan with Type_ := .known "Domain" } rfl (by decide)).1

/-! ## `ParseClientPorts` -/

theorem strings.TrimPrefix_append (pre s : String) : strings.TrimPrefix (pre ++ s) pre = s := by
  unfold strings.TrimPrefix strings.HasPrefix
  have hp : pre.data.isPrefixOf (pre ++ s).data = true := by
    rw [String.data_append, List.isPrefixOf_iff_prefix]
    exact List.prefix_append _ _
  rw [if_pos hp]
  apply String.ext
  simp [String.data_append]

theorem strings.TrimPrefix_of_not_hasPrefix (pre s : String)
    (h : strings.HasPrefix s pre = false) : strings.TrimPrefix s pre = s := by
  unfold strings.TrimPrefix
  rw [h]
  rfl

/-- C5: `ParseClientPorts` removes one leading `data: ` and no more, hands the
remainder to the JSON decoder, and returns the decoded `data.ports` as they are
with no error; it returns an error, and no ports, exactly when the decoder
rejects the remainder. For a text that does not start with `data: `, parsing it
with and without the prefix gives the same result. -/
theorem ParseClientPorts_spec (jsonUnmarshal : String → Except String ResponseData)
    (s : String) :
    ParseClientPorts jsonUnmarshal ("data: " ++ s) =
      (jsonUnmarshal s).map (fun responseData => responseData.Data.Ports) ∧
    (strings.HasPrefix s "data: " = false →
      ParseClientPorts jsonUnmarshal s =
        (jsonUnmarshal s).map (fun responseData => responseData.Data.Ports)) ∧
    (∀ responseData, jsonUnmarshal (strings.TrimPrefix s "data: ") = .ok responseData →
      ParseClientPorts jsonUnmarshal s = .ok responseData.Data.Ports) ∧
    (∀ err, ParseClientPorts jsonUnmarshal s = .error err ↔
      jsonUnmarshal (strings.TrimPrefix s "data: ") = .error err) ∧
    (strings.HasPrefix s "data: " = false →
      ParseClientPorts jsonUnmarshal ("data: " ++ s) = ParseClientPorts jsonUnmarshal s) := by
  have hgen : ∀ t, ParseClientPorts jsonUnmarshal t =
      (jsonUnmarshal (strings.TrimPrefix t "data: ")).map
        (fun responseData => responseData.Data.Ports) := by
    intro t
    unfold ParseClientPorts
    cases h : jsonUnmarshal (strings.TrimPrefix t "data: ") <;> simp only [h] <;> rfl
  refine ⟨?_, ?_, ?_, ?_, ?_⟩
  · rw [hgen, strings.TrimPrefix_append]
  · intro h
    rw [hgen, strings.TrimPrefix_of_not_hasPrefix _ _ h]
  · intro responseData h
    rw [hgen, h]
    rfl
  · intro err
    rw [hgen]
    cases jsonUnmarshal (strings.TrimPrefix s "data: ") with
    | error e => simp [Except.map]
    | ok v => simp [Except.map]
  · intro h
    rw [hgen, hgen, strings.TrimPrefix_append, strings.TrimPrefix_of_not_hasPrefix _ _ h]

/-- C5, at the text `event`, which does not start with `data: `: with and
without the prefix the two ports of the event are returned. -/
theorem ParseClientPorts_spec_witness :
    ParseClientPorts exampleUnmarshal ("data: " ++ "event") =
      ParseClientPorts exampleUnmarshal "event" ∧
    ParseClientPorts exampleUnmarshal "event" = .ok (some [⟨8080, 80⟩, ⟨3000, 31000⟩]) :=
  ⟨(ParseClientPorts_spec exampleUnmarshal "event").2.2.2.2 (by decide),
   (ParseClientPorts_spec exampleUnmarshal "event").2.2.1 _ rfl⟩

/-! ## The mapping functions of `instance_resource.go` -/

theorem Slice.foldl_append_singleton {α β : Type} (f : α → β) (l : List α) (acc : List β) :
    l.foldl (fun (s : Slice β) x => Slice.append s [f x]) (some acc) = some (acc ++ l.map f) := by
  induction l generalizing acc with
  | nil => simp
  | cons x rest ih =>
    simp only [List.foldl_cons, List.map_cons]
    have h : Slice.append (some acc) [f x] = some (acc ++ [f x]) := rfl
    rw [h, ih]
    simp

theorem mapModelPortToPort_eq (portList : Slice client.Port) :
    mapModelPortToPort portList =
      some (portList.elems.map
        (fun pm => { ContainerPort := .known pm.ContainerPort,
                     ExposedPort := .known pm.ExposedPort })) := by
  unfold mapModelPortToPort
  rw [Slice.foldl_append_singleton]
  rfl

theorem mapEnvsToClientEnvs_eq (envList : Slice Env) (isSecret : Bool) :
    mapEnvsToClientEnvs envList isSecret =
      some (envList.elems.map
        (fun env => { Value := env.Key.ValueString ++ "=" ++ env.Value.ValueString,
                      IsSecret := isSecret })) := by
  unfold mapEnvsToClientEnvs
  rw [Slice.foldl_append_singleton]
  rfl

/-- The environment list both callbacks build from the plan. -/
theorem InstanceResource.envs_eq (plan : InstanceResourceModel) :
    (mapEnvsToClientEnvs plan.Env false).append (mapEnvsToClientEnvs plan.EnvSecret true).elems =
      some (plan.Env.elems.map
          (fun env => { Value := env.Key.ValueString ++ "=" ++ env.Value.ValueString,
                        IsSecret := false }) ++
        plan.EnvSecret.elems.map
          (fun env => { Value := env.Key.ValueString ++ "=" ++ env.Value.ValueString,
                        IsSecret := true })) := by
  rw [mapEnvsToClientEnvs_eq, mapEnvsToClientEnvs_eq]
  simp only [Slice.elems, Option.getD_some]
  unfold Slice.append
  split
  · rename_i h _
    cases h
  · rfl

/-! ## Instance `Create` -/

/-- C6: instance `Create` stores a state exactly when the four steps (organization,
create call, deployment event, decoding of the event) succeed, and the stored
state is then the plan with `id` set to the `ClusterInstanceID` the create call
returned and `ports` set to the ports of the event, one entry per event port in
the same order, each with that port's container port and exposed port; every
other attribute is the plan's. -/
theorem InstanceResource.Create_state (jsonUnmarshal : String → Except String ResponseData)
    (r : client.SpheronApi) (topicId : String) (plan st : InstanceResourceModel) :
    (InstanceResource.Create jsonUnmarshal r topicId plan).State = some st ↔
      ∃ organization response eventDataString responseData,
        r.GetOrganization = .ok organization ∧
        r.CreateClusterInstance
          (InstanceResource.Create.createRequest organization topicId plan) = .ok response ∧
        r.WaitForDeployedEvent topicId = .ok eventDataString ∧
        jsonUnmarshal (strings.TrimPrefix eventDataString "data: ") = .ok responseData ∧
        (InstanceResource.Create jsonUnmarshal r topicId plan).Diagnostics = [] ∧
        st = { plan with
          Id := .known response.ClusterInstanceID
          Ports := some (responseData.Data.Ports.elems.map
            (fun pm => { ContainerPort := .known pm.ContainerPort,
                         ExposedPort := .known pm.ExposedPort })) } ∧
        st.Ports.len = responseData.Data.Ports.len := by
  unfold InstanceResource.Create
  cases ho : r.GetOrganization with
  | error e => simp
  | ok organization =>
    cases hc : r.CreateClusterInstance
        (InstanceResource.Create.createRequest organization topicId plan) with
    | error e => simp [hc]
    | ok response =>
      cases hw : r.WaitForDeployedEvent topicId with
      | error e => simp [hc, hw]
      | ok eventDataString =>
        cases hj : jsonUnmarshal (strings.TrimPrefix eventDataString "data: ") with
        | error e => simp [hc, hw, ParseClientPorts, hj]
        | ok responseData =>
          simp only [hc, hw, ParseClientPorts, hj, mapModelPortToPort_eq, Option.some.injEq,
            Except.ok.injEq, exists_and_left, exists_eq_left', true_and]
          constructor
          · intro h
            refine ⟨h.symm, ?_⟩
            rw [← h]
            simp [Slice.len, Slice.elems]
          · intro h
            exact h.1.symm

/-- C6, at `exampleInstancePlan` with a client whose calls succeed and whose
event carries the ports `8080 -> 80` and `3000 -> 31000`: the stored state has
id `instance-1` and those two ports. -/
theorem InstanceResource.Create_state_witness :
    (InstanceResource.Create exampleUnmarshal exampleApi "topic-1" exampleInstancePlan).State =
      some { exampleInstancePlan with
        Id := .known "instance-1"
        Ports := some [⟨.known 8080, .known 80⟩, ⟨.known 3000, .known 31000⟩] } :=
  (InstanceResource.Create_state exampleUnmarshal exampleApi "topic-1" exampleInstancePlan _).2
    ⟨⟨"org-1"⟩, ⟨"instance-1"⟩, "data: event",
      { Type_ := 1
        Data := { DeploymentStatus := "Deployed", LatestUrlPreview := "app.example"
                  ProviderHost := "provider.example"
                  Ports := some [⟨8080, 80⟩, ⟨3000, 31000⟩] }
        Session := "" },
      rfl, rfl, rfl, rfl, by decide, rfl, rfl⟩

/-- Every create request `Create` sends is the one built from the plan. -/
theorem InstanceResource.Create_calls (jsonUnmarshal : String → Except String ResponseData)
    (r : client.SpheronApi) (topicId : String) (plan : InstanceResourceModel)
    (request : client.CreateInstanceRequest)
    (h : ApiCall.CreateClusterInstance request ∈
      (InstanceResource.Create jsonUnmarshal r topicId plan).calls) :
    ∃ organization, r.GetOrganization = .ok organization ∧
      request = InstanceResource.Create.createRequest organization topicId plan := by
  unfold InstanceResource.Create at h
  cases ho : r.GetOrganization with
  | error e => simp [ho] at h
  | ok organization =>
    refine ⟨organization, rfl, ?_⟩
    cases hc : r.CreateClusterInstance
        (InstanceResource.Create.createRequest organization topicId plan) with
    | error e => simpa [ho, hc] using h
    | ok response =>
      cases hw : r.WaitForDeployedEvent topicId with
      | error e => simpa [ho, hc, hw] using h
      | ok eventDataString =>
        cases hp : ParseClientPorts jsonUnmarshal eventDataString with
        | error e => simpa [ho, hc, hw, hp] using h
        | ok ports => simpa [ho, hc, hw, hp] using h

theorem InstanceResource.Update.afterHealthCheck_calls (r : client.SpheronApi)
    (topicId : String) (plan : InstanceResourceModel) (organization : client.Organization)
    (calls : List ApiCall) (id : String) (request : client.UpdateInstanceRequest)
    (hcalls : ApiCall.UpdateClusterInstance id request ∉ calls)
    (h : ApiCall.UpdateClusterInstance id request ∈
      (InstanceResource.Update.afterHealthCheck r topicId plan organization calls).calls) :
    request = InstanceResource.Update.updateRequest organization topicId plan := by
  unfold InstanceResource.Update.afterHealthCheck at h
  cases hi : r.GetClusterInstance plan.Id.ValueString with
  | error e => simp [hi, hcalls] at h
  | ok inst =>
    cases ho : r.GetClusterInstanceOrder inst.ActiveOrder with
    | error e => simp [hi, ho, hcalls] at h
    | ok order =>
      simp only [hi, ho] at h
      split at h
      · cases hu : r.UpdateClusterInstance plan.Id.ValueString
            (InstanceResource.Update.updateRequest organization topicId plan) with
        | error e =>
          simp only [hu, List.mem_append, List.mem_cons, reduceCtorEq,
            ApiCall.UpdateClusterInstance.injEq, false_or, List.mem_nil_iff, or_false,
            hcalls] at h
          exact h.2
        | ok u =>
          cases hw : r.WaitForDeployedEvent topicId <;>
          · simp only [hu, hw, List.mem_append, List.mem_cons, reduceCtorEq,
              ApiCall.UpdateClusterInstance.injEq, false_or, List.mem_nil_iff, or_false,
              hcalls] at h
            exact h.2
      · simp [hcalls] at h

/-- Every update request `Update` sends is the one built from the plan. -/
theorem InstanceResource.Update_calls (r : client.SpheronApi) (topicId : String)
    (plan : InstanceResourceModel) (id : String) (request : client.UpdateInstanceRequest)
    (h : ApiCall.UpdateClusterInstance id request ∈
      (InstanceResource.Update r topicId plan).calls) :
    ∃ organization, r.GetOrganization = .ok organization ∧
      request = InstanceResource.Update.updateRequest organization topicId plan := by
  unfold InstanceResource.Update at h
  cases ho : r.GetOrganization with
  | error e => simp [ho] at h
  | ok organization =>
    refine ⟨organization, rfl, ?_⟩
    simp only [ho] at h
    split at h
    · split at h
      · simp at h
      · exact InstanceResource.Update.afterHealthCheck_calls r topicId plan organization _ _ _
          (by simp) h
    · exact InstanceResource.Update.afterHealthCheck_calls r topicId plan organization _ _ _
        (by simp) h

/-- Once the organization is fetched, `Create` sends the create request built
from the plan. -/
theorem InstanceResource.Create_sends (jsonUnmarshal : String → Except String ResponseData)
    (r : client.SpheronApi) (topicId : String) (plan : InstanceResourceModel)
    (organization : client.Organization)
    (ho : r.GetOrganization = .ok organization) :
    ApiCall.CreateClusterInstance
        (InstanceResource.Create.createRequest organization topicId plan) ∈
      (InstanceResource.Create jsonUnmarshal r topicId plan).calls := by
  unfold InstanceResource.Create
  cases hc : r.CreateClusterInstance
      (InstanceResource.Create.createRequest organization topicId plan) with
  | error e => simp [ho, hc]
  | ok response =>
    cases hw : r.WaitForDeployedEvent topicId with
    | error e => simp [ho, hc, hw]
    | ok eventDataString =>
      cases hp : ParseClientPorts jsonUnmarshal eventDataString with
      | error e => simp [ho, hc, hw, hp]
      | ok ports => simp [ho, hc, hw, hp]

theorem InstanceResource.Update.afterHealthCheck_sends (r : client.SpheronApi)
    (topicId : String) (plan : InstanceResourceModel) (organization : client.Organization)
    (calls : List ApiCall) (inst : client.Instance) (order : client.InstanceOrder)
    (hi : r.GetClusterInstance plan.Id.ValueString = .ok inst)
    (ho : r.GetClusterInstanceOrder inst.ActiveOrder = .ok order)
    (hchanged : order.ClusterInstanceConfiguration.Args ≠ plan.Args ∨
      order.ClusterInstanceConfiguration.Command ≠ plan.Commands ∨
      InstanceResource.Update.envs plan ≠ order.ClusterInstanceConfiguration.Env ∨
      plan.Tag.ValueString ≠ order.ClusterInstanceConfiguration.Tag) :
    ApiCall.UpdateClusterInstance plan.Id.ValueString
        (InstanceResource.Update.updateRequest organization topicId plan) ∈
      (InstanceResource.Update.afterHealthCheck r topicId plan organization calls).calls := by
  unfold InstanceResource.Update.afterHealthCheck
  have hcond : (!decide (order.ClusterInstanceConfiguration.Args = plan.Args) ||
      !decide (order.ClusterInstanceConfiguration.Command = plan.Commands) ||
      !decide (InstanceResource.Update.envs plan = order.ClusterInstanceConfiguration.Env) ||
      !decide (plan.Tag.ValueString = order.ClusterInstanceConfiguration.Tag)) = true := by
    simp only [Bool.or_eq_true, Bool.not_eq_true', decide_eq_false_iff_not]
    rcases hchanged with h | h | h | h
    · exact Or.inl (Or.inl (Or.inl h))
    · exact Or.inl (Or.inl (Or.inr h))
    · exact Or.inl (Or.inr h)
    · exact Or.inr h
  simp only [hi, ho, hcond, if_true]
  cases hu : r.UpdateClusterInstance plan.Id.ValueString
      (InstanceResource.Update.updateRequest organization topicId plan) with
  | error e => simp
  | ok u =>
    cases hw : r.WaitForDeployedEvent topicId <;> simp

/-- Once the organization, the instance and its order are fetched, the
health-check step has not failed, and the plan differs from the order in its
arguments, commands, environment or tag, `Update` sends the update request built
from the plan. -/
theorem InstanceResource.Update_sends (r : client.SpheronApi) (topicId : String)
    (plan : InstanceResourceModel) (organization : client.Organization)
    (inst : client.Instance) (order : client.InstanceOrder)
    (horg : r.GetOrganization = .ok organization)
    (hhc : (HealthCheck.As plan.HealthCheck).Path.IsNull = true ∨
      (HealthCheck.As plan.HealthCheck).Port.IsNull = true ∨
      r.UpdateClusterInstanceHealthCheckInfo plan.Id.ValueString
        { HealthCheckURL := (HealthCheck.As plan.HealthCheck).Path.ValueString
          HealthCheckPort := (HealthCheck.As plan.HealthCheck).Port.ValueInt64 } = .ok ())
    (hi : r.GetClusterInstance plan.Id.ValueString = .ok inst)
    (ho : r.GetClusterInstanceOrder inst.ActiveOrder = .ok order)
    (hchanged : order.ClusterInstanceConfiguration.Args ≠ plan.Args ∨
      order.ClusterInstanceConfiguration.Command ≠ plan.Commands ∨
      InstanceResource.Update.envs plan ≠ order.ClusterInstanceConfiguration.Env ∨
      plan.Tag.ValueString ≠ order.ClusterInstanceConfiguration.Tag) :
    ApiCall.UpdateClusterInstance plan.Id.ValueString
        (InstanceResource.Update.updateRequest organization topicId plan) ∈
      (InstanceResource.Update r topicId plan).calls := by
  unfold InstanceResource.Update
  simp only [horg]
  split
  · rename_i hcond
    cases hh : r.UpdateClusterInstanceHealthCheckInfo plan.Id.ValueString
        { HealthCheckURL := (HealthCheck.As plan.HealthCheck).Path.ValueString
          HealthCheckPort := (HealthCheck.As plan.HealthCheck).Port.ValueInt64 } with
    | error e =>
      rcases hhc with h | h | h
      · simp [h] at hcond
      · simp [h] at hcond
      · rw [hh] at h
        cases h
    | ok u =>
      exact InstanceResource.Update.afterHealthCheck_sends r topicId plan organization _
        inst order hi ho hchanged
  · exact InstanceResource.Update.afterHealthCheck_sends r topicId plan organization _
      inst order hi ho hchanged

/-- C9: the environment list that instance `Create` puts in its create request,
and that `Update` puts in its update request, is the plan's `env` entries in
order, each as `key=value` with `IsSecret` false, followed by the plan's
`env_secret` entries in order, each as `key=value` with `IsSecret` true; its
length is `len(env) + len(env_secret)`. `Create` sends that request once the
organization is fetched, `Update` sends it once its reads have succeeded and the
plan differs from the order, and every create or update request the callbacks
send carries exactly this list. -/
theorem InstanceResource.env_list (plan : InstanceResourceModel) (envs : List client.Env)
    (henvs : envs =
      plan.Env.elems.map
        (fun env => { Value := env.Key.ValueString ++ "=" ++ env.Value.ValueString,
                      IsSecret := false }) ++
      plan.EnvSecret.elems.map
        (fun env => { Value := env.Key.ValueString ++ "=" ++ env.Value.ValueString,
                      IsSecret := true })) :
    envs.length = plan.Env.len + plan.EnvSecret.len ∧
    (∀ organization topicId,
      (InstanceResource.Create.createRequest organization topicId plan).Configuration.Env =
        some envs) ∧
    (∀ organization topicId,
      (InstanceResource.Update.updateRequest organization topicId plan).Env = some envs) ∧
    (∀ (jsonUnmarshal : String → Except String ResponseData) (r : client.SpheronApi)
        (topicId : String) (request : client.CreateInstanceRequest),
      ApiCall.CreateClusterInstance request ∈
        (InstanceResource.Create jsonUnmarshal r topicId plan).calls →
      request.Configuration.Env = some envs) ∧
    (∀ (r : client.SpheronApi) (topicId id : String) (request : client.UpdateInstanceRequest),
      ApiCall.UpdateClusterInstance id request ∈
        (InstanceResource.Update r topicId plan).calls →
      request.Env = some envs) ∧
    (∀ (jsonUnmarshal : String → Except String ResponseData) (r : client.SpheronApi)
        (topicId : String) (organization : client.Organization),
      r.GetOrganization = .ok organization →
      ∃ request, request.Configuration.Env = some envs ∧
        request = InstanceResource.Create.createRequest organization topicId plan ∧
        ApiCall.CreateClusterInstance request ∈
          (InstanceResource.Create jsonUnmarshal r topicId plan).calls) ∧
    (∀ (r : client.SpheronApi) (topicId : String) (organization : client.Organization)
        (inst : client.Instance) (order : client.InstanceOrder),
      r.GetOrganization = .ok organization →
      ((HealthCheck.As plan.HealthCheck).Path.IsNull = true ∨
        (HealthCheck.As plan.HealthCheck).Port.IsNull = true ∨
        r.UpdateClusterInstanceHealthCheckInfo plan.Id.ValueString
          { HealthCheckURL := (HealthCheck.As plan.HealthCheck).Path.ValueString
            HealthCheckPort := (HealthCheck.As plan.HealthCheck).Port.ValueInt64 } = .ok ()) →
      r.GetClusterInstance plan.Id.ValueString = .ok inst →
      r.GetClusterInstanceOrder inst.ActiveOrder = .ok order →
      (order.ClusterInstanceConfiguration.Args ≠ plan.Args ∨
        order.ClusterInstanceConfiguration.Command ≠ plan.Commands ∨
        some envs ≠ order.ClusterInstanceConfiguration.Env ∨
        plan.Tag.ValueString ≠ order.ClusterInstanceConfiguration.Tag) →
      ∃ request, request.Env = some envs ∧
        request = InstanceResource.Update.updateRequest organization topicId plan ∧
        ApiCall.UpdateClusterInstance plan.Id.ValueString request ∈
          (InstanceResource.Update r topicId plan).calls) := by
  have hc : ∀ organization topicId,
      (InstanceResource.Create.createRequest organization topicId plan).Configuration.Env =
        some envs := by
    intro organization topicId
    rw [henvs, ← InstanceResource.envs_eq]
    rfl
  have hu : ∀ organization topicId,
      (InstanceResource.Update.updateRequest organization topicId plan).Env = some envs := by
    intro organization topicId
    rw [henvs, ← InstanceResource.envs_eq]
    rfl
  have henvs' : InstanceResource.Update.envs plan = some envs := hu ⟨""⟩ ""
  refine ⟨?_, hc, hu, ?_, ?_, ?_, ?_⟩
  · rw [henvs]
    simp [Slice.len]
  · intro jsonUnmarshal r topicId request h
    obtain ⟨organization, _, hreq⟩ :=
      InstanceResource.Create_calls jsonUnmarshal r topicId plan request h
    rw [hreq]
    exact hc organization topicId
  · intro r topicId id request h
    obtain ⟨organization, _, hreq⟩ := InstanceResource.Update_calls r topicId plan id request h
    rw [hreq]
    exact hu organization topicId
  · intro jsonUnmarshal r topicId organization horg
    exact ⟨_, hc organization topicId, rfl,
      InstanceResource.Create_sends jsonUnmarshal r topicId plan organization horg⟩
  · intro r topicId organization inst order horg hhc hi ho hchanged
    refine ⟨_, hu organization topicId, rfl,
      InstanceResource.Update_sends r topicId plan organization inst order horg hhc hi ho ?_⟩
    rw [henvs']
    exact hchanged

/-- C9, at `exampleInstancePlan` with a client whose calls succeed: `Create` sends
a create request, and `Update` an update request, whose environment list is
`A=1`, `B=` (not secret) and `KEY=s=t` (secret), in this order. -/
theorem InstanceResource.env_list_witness :
    (∃ request : client.CreateInstanceRequest,
      request.Configuration.Env =
        some [⟨"A=1", false⟩, ⟨"B=", false⟩, ⟨"KEY=s=t", true⟩] ∧
      request = InstanceResource.Create.createRequest ⟨"org-1"⟩ "topic-1" exampleInstancePlan ∧
      ApiCall.CreateClusterInstance request ∈
        (InstanceResource.Create exampleUnmarshal exampleApi "topic-1"
          exampleInstancePlan).calls) ∧
    (∃ request : client.UpdateInstanceRequest,
      request.Env = some [⟨"A=1", false⟩, ⟨"B=", false⟩, ⟨"KEY=s=t", true⟩] ∧
      request = InstanceResource.Update.updateRequest ⟨"org-1"⟩ "topic-2"
        { exampleInstancePlan with Id := .known "instance-1" } ∧
      ApiCall.UpdateClusterInstance "instance-1" request ∈
        (InstanceResource.Update exampleApi "topic-2"
          { exampleInstancePlan with Id := .known "instance-1" }).calls) :=
  ⟨(InstanceResource.env_list exampleInstancePlan
      [⟨"A=1", false⟩, ⟨"B=", false⟩, ⟨"KEY=s=t", true⟩] (by decide)).2.2.2.2.2.1
      exampleUnmarshal exampleApi "topic-1" ⟨"org-1"⟩ rfl,
   (InstanceResource.env_list { exampleInstancePlan with Id := .known "instance-1" }
      [⟨"A=1", false⟩, ⟨"B=", false⟩, ⟨"KEY=s=t", true⟩] (by decide)).2.2.2.2.2.2
      exampleApi "topic-2" ⟨"org-1"⟩ ⟨"order-1", "cluster-1", ⟨"/health", ⟨8080, 80⟩⟩⟩
      exampleOrder rfl (Or.inr (Or.inr rfl)) rfl rfl (by decide)⟩

/-- C8, the code at a plan with `health_check = {path = "/health", port = 8080}`:
the create request of instance `Create` carries the path as `HealthCheckURL` but
the empty string as `HealthCheckPort`, for this and for every plan, while
`Update` sends both path and port 8080 to the health-check endpoint. -/
theorem InstanceResource.Create_healthCheckPort_empty :
    exampleInstancePlan.HealthCheck = .known ⟨.known 8080, .known "/health"⟩ ∧
    (InstanceResource.Create exampleUnmarshal exampleApi "topic-1" exampleInstancePlan).calls =
      [.GetOrganization,
       .CreateClusterInstance
         (InstanceResource.Create.createRequest ⟨"org-1"⟩ "topic-1" exampleInstancePlan),
       .WaitForDeployedEvent "topic-1"] ∧
    (InstanceResource.Create.createRequest ⟨"org-1"⟩ "topic-1"
      exampleInstancePlan).HealthCheckURL = "/health" ∧
    (InstanceResource.Create.createRequest ⟨"org-1"⟩ "topic-1"
      exampleInstancePlan).HealthCheckPort = "" ∧
    (InstanceResource.Create.createRequest ⟨"org-1"⟩ "topic-1"
      exampleInstancePlan).HealthCheckPort ≠ "8080" ∧
    (∀ organization topicId plan,
      (InstanceResource.Create.createRequest organization topicId plan).HealthCheckPort = "") ∧
    ApiCall.UpdateClusterInstanceHealthCheckInfo "instance-1" ⟨"/health", 8080⟩ ∈
      (InstanceResource.Update exampleApi "topic-2"
        { exampleInstancePlan with Id := .known "instance-1" }).calls := by
  refine ⟨rfl, by decide, by decide, by decide, by decide, fun _ _ _ => rfl, by decide⟩

/-! ## `mapClientEnvsToEnvs` -/

theorem strings.Index_eq (s : List Char) (h : '=' ∈ s) :
    ∃ k v, s = k ++ '=' :: v ∧ '=' ∉ k ∧ strings.Index s ['='] = some k.length := by
  induction s with
  | nil => simp at h
  | cons c rest ih =>
    by_cases hc : c = '='
    · refine ⟨[], rest, by simp [hc], by simp, ?_⟩
      simp [strings.Index, hc, List.isPrefixOf]
    · have hrest : '=' ∈ rest := by
        rcases List.mem_cons.1 h with h' | h'
        · exact absurd h'.symm hc
        · exact h'
      obtain ⟨k, v, hs, hk, hi⟩ := ih hrest
      refine ⟨c :: k, v, by simp [hs], ?_, ?_⟩
      · simp only [List.mem_cons, not_or]
        exact ⟨fun h' => hc h'.symm, hk⟩
      · have hne : ('=' == c) = false := by
          simp only [beq_eq_false_iff_ne, ne_eq]
          exact fun h' => hc h'.symm
        simp [strings.Index, List.isPrefixOf, hne, hi]

theorem utf8ByteSize_pos_of_mem (s : String) (c : Char) (h : c ∈ s.data) :
    1 ≤ s.utf8ByteSize := by
  obtain ⟨l⟩ := s
  cases l with
  | nil => simp at h
  | cons d rest =>
    have hd := Char.utf8Size_pos d
    simp only [String.utf8ByteSize, String.utf8ByteSize.go]
    omega

theorem strings.SplitN_eq (s : String) (h : '=' ∈ s.data) :
    ∃ k v : String, strings.SplitN s "=" 2 = [k, v] ∧ s = k ++ "=" ++ v ∧ '=' ∉ k.data := by
  obtain ⟨k, v, hs, hk, hi⟩ := strings.Index_eq s.data h
  have hsize := utf8ByteSize_pos_of_mem s '=' h
  have hfuel : min 2 (s.utf8ByteSize + 1) - 1 = 1 := by omega
  refine ⟨⟨k⟩, ⟨v⟩, ?_, ?_, hk⟩
  · unfold strings.SplitN
    rw [if_neg (by decide), hfuel]
    have hsep : ("=" : String).data = ['='] := rfl
    rw [hsep]
    simp only [strings.SplitN.loop, hi, List.map_cons, List.map_nil, List.length_singleton]
    rw [hs]
    simp
  · apply String.ext
    simp [String.data_append, hs]

/-- The loop of `mapClientEnvsToEnvs` does not panic when every value has an
`=`: it appends, for the entries of the wanted secrecy in order, the key before
the first `=` and the value after it. -/
theorem mapClientEnvsToEnvs_loop_spec (isSecret : Bool) (l : List client.Env)
    (h : ∀ e ∈ l, '=' ∈ e.Value.data) (acc : List Env) :
    ∃ out : List Env,
      mapClientEnvsToEnvs.loop isSecret l (some acc) = some (some (acc ++ out)) ∧
      List.Forall₂
        (fun (e : client.Env) (x : Env) =>
          ∃ k v : String, x = ⟨.known k, .known v⟩ ∧ e.Value = k ++ "=" ++ v ∧ '=' ∉ k.data)
        (l.filter (fun e => e.IsSecret = isSecret)) out := by
  induction l generalizing acc with
  | nil => exact ⟨[], by simp [mapClientEnvsToEnvs.loop], by simp⟩
  | cons e rest ih =>
    have hrest : ∀ e' ∈ rest, '=' ∈ e'.Value.data :=
      fun e' he' => h e' (List.mem_cons_of_mem _ he')
    unfold mapClientEnvsToEnvs.loop
    by_cases hs : e.IsSecret = isSecret
    · obtain ⟨k, v, hsplit, hval, hk⟩ := strings.SplitN_eq e.Value (h e (List.mem_cons_self _ _))
      obtain ⟨out, hout, hrel⟩ := ih hrest (acc ++ [⟨.known k, .known v⟩])
      refine ⟨⟨.known k, .known v⟩ :: out, ?_, ?_⟩
      · simp only [hs, ne_eq, not_true_eq_false, if_false, hsplit]
        have happ : Slice.append (some acc) [({ Key := .known k, Value := .known v } : Env)] =
            some (acc ++ [⟨.known k, .known v⟩]) := rfl
        rw [happ, hout]
        simp
      · rw [List.filter_cons_of_pos (by simpa using hs)]
        exact List.Forall₂.cons ⟨k, v, rfl, hval, hk⟩ hrel
    · obtain ⟨out, hout, hrel⟩ := ih hrest acc
      refine ⟨out, ?_, ?_⟩
      · simp only [ne_eq, hs, not_false_eq_true, if_true]
        exact hout
      · rw [List.filter_cons_of_neg (by simpa using hs)]
        exact hrel

/-- The result of `mapClientEnvsToEnvs` when every value has an `=`. -/
theorem mapClientEnvsToEnvs_spec (clientEnvs : Slice client.Env) (isSecret : Bool)
    (h : ∀ e ∈ clientEnvs.elems, '=' ∈ e.Value.data) :
    ∃ envList : Slice Env,
      mapClientEnvsToEnvs clientEnvs isSecret = some envList ∧
      List.Forall₂
        (fun (e : client.Env) (x : Env) =>
          ∃ k v : String, x = ⟨.known k, .known v⟩ ∧ e.Value = k ++ "=" ++ v ∧ '=' ∉ k.data)
        (clientEnvs.elems.filter (fun e => e.IsSecret = isSecret)) envList.elems := by
  obtain ⟨out, hout, hrel⟩ := mapClientEnvsToEnvs_loop_spec isSecret clientEnvs.elems h []
  unfold mapClientEnvsToEnvs
  rw [hout]
  simp only [List.nil_append]
  by_cases hlen : Slice.len (some out) = 0
  · refine ⟨none, by rw [if_pos hlen], ?_⟩
    have hnil : out = [] := List.eq_nil_of_length_eq_zero hlen
    rw [hnil] at hrel
    exact hrel
  · exact ⟨some out, by rw [if_neg hlen], hrel⟩

theorem length_filter_secret (l : List client.Env) :
    (l.filter (fun e => e.IsSecret = false)).length +
      (l.filter (fun e => e.IsSecret = true)).length = l.length := by
  induction l with
  | nil => rfl
  | cons e rest ih =>
    cases hs : e.IsSecret
    · rw [List.filter_cons_of_pos (by simp [hs]), List.filter_cons_of_neg (by simp [hs])]
      simp only [List.length_cons]
      omega
    · rw [List.filter_cons_of_neg (by simp [hs]), List.filter_cons_of_pos (by simp [hs])]
      simp only [List.length_cons]
      omega

/-- C10, as stated, fails: with the remote list `A=1`, `A=1`, whose values each
contain `=`, `Read` computes the two entries for `env`, the framework refuses
the set with `Duplicate Set Element`, and no state is written. -/
theorem mapClientEnvsToEnvs_partition_counterexample :
    (∀ e ∈ duplicateEnvOrder.ClusterInstanceConfiguration.Env.elems, '=' ∈ e.Value.data) ∧
    mapClientEnvsToEnvs duplicateEnvOrder.ClusterInstanceConfiguration.Env false =
      some (some [⟨.known "A", .known "1"⟩, ⟨.known "A", .known "1"⟩]) ∧
    (InstanceResource.Read refuseDuplicateSetElements duplicateEnvApi
      exampleInstanceState).map (fun resp => resp.State) = some none ∧
    (InstanceResource.Read refuseDuplicateSetElements duplicateEnvApi
      exampleInstanceState).map (fun resp => resp.Diagnostics) =
        some [⟨"Duplicate Set Element", "env"⟩] := by
  decide

/-- C10, amended: when every value of the remote environment list contains `=`,
instance `Read` does not panic and partitions the list by secrecy: the `env` it
computes holds, in the original order, exactly the entries with `IsSecret`
false, and the `env_secret` exactly those with `IsSecret` true, each entry split
at its first `=` into key and value, and the two lengths sum to the length of
the remote list. `Read` hands the state with these two lists to `State.Set`,
adds the diagnostics `State.Set` returns, and the state is stored exactly when
there are none. -/
theorem mapClientEnvsToEnvs_partition (clientEnvs : Slice client.Env)
    (h : ∀ e ∈ clientEnvs.elems, '=' ∈ e.Value.data) :
    ∃ env envSecret : Slice Env,
      mapClientEnvsToEnvs clientEnvs false = some env ∧
      mapClientEnvsToEnvs clientEnvs true = some envSecret ∧
      List.Forall₂
        (fun (e : client.Env) (x : Env) =>
          ∃ k v : String, x = ⟨.known k, .known v⟩ ∧ e.Value = k ++ "=" ++ v ∧ '=' ∉ k.data)
        (clientEnvs.elems.filter (fun e => e.IsSecret = false)) env.elems ∧
      List.Forall₂
        (fun (e : client.Env) (x : Env) =>
          ∃ k v : String, x = ⟨.known k, .known v⟩ ∧ e.Value = k ++ "=" ++ v ∧ '=' ∉ k.data)
        (clientEnvs.elems.filter (fun e => e.IsSecret = true)) envSecret.elems ∧
      env.len + envSecret.len = clientEnvs.len ∧
      ∀ (stateSet : InstanceResourceModel → List Diagnostic) (r : client.SpheronApi)
          (state : InstanceResourceModel) (inst : client.Instance)
          (order : client.InstanceOrder) (cluster : client.Cluster),
        state.Id.IsNull = false →
        r.GetClusterInstance state.Id.ValueString = .ok inst →
        r.GetClusterInstanceOrder inst.ActiveOrder = .ok order →
        r.GetCluster inst.Cluster = .ok cluster →
        order.ClusterInstanceConfiguration.Env = clientEnvs →
        ∃ st, InstanceResource.Read.mapState state inst order cluster = some st ∧
          st.Env = env ∧ st.EnvSecret = envSecret ∧
          InstanceResource.Read stateSet r state =
            some ⟨stateSet st, if (stateSet st).isEmpty then some st else none,
              [.GetClusterInstance state.Id.ValueString,
               .GetClusterInstanceOrder inst.ActiveOrder,
               .GetCluster inst.Cluster]⟩ := by
  obtain ⟨env, henv, hrel⟩ := mapClientEnvsToEnvs_spec clientEnvs false h
  obtain ⟨envSecret, hsec, hrelSec⟩ := mapClientEnvsToEnvs_spec clientEnvs true h
  refine ⟨env, envSecret, henv, hsec, hrel, hrelSec, ?_, ?_⟩
  · have h1 := hrel.length_eq
    have h2 := hrelSec.length_eq
    have h3 := length_filter_secret clientEnvs.elems
    simp only [Slice.len]
    omega
  · intro stateSet r state inst order cluster hid hinst horder hcluster henvs
    have hms : ∃ st, InstanceResource.Read.mapState state inst order cluster = some st ∧
        st.Env = env ∧ st.EnvSecret = envSecret := by
      unfold InstanceResource.Read.mapState
      simp only [henvs, henv, hsec]
      exact ⟨_, rfl, rfl, rfl⟩
    obtain ⟨st, hst, hE, hS⟩ := hms
    refine ⟨st, hst, hE, hS, ?_⟩
    unfold InstanceResource.Read
    simp only [hid, Bool.false_eq_true, if_false, hinst, horder, hcluster, hst]

/-- C10 amended, at the remote list `A=1`, `KEY=s=t` (secret), `B=`: `env` is
`A = 1`, `B = ""`, `env_secret` is `KEY = s=t`, and `Read` stores a state with
these two lists. -/
theorem mapClientEnvsToEnvs_partition_witness :
    (∀ e ∈ Slice.elems (some [(⟨"A=1", false⟩ : client.Env), ⟨"KEY=s=t", true⟩, ⟨"B=", false⟩]),
      '=' ∈ e.Value.data) ∧
    mapClientEnvsToEnvs (some [⟨"A=1", false⟩, ⟨"KEY=s=t", true⟩, ⟨"B=", false⟩]) false =
      some (some [⟨.known "A", .known "1"⟩, ⟨.known "B", .known ""⟩]) ∧
    mapClientEnvsToEnvs (some [⟨"A=1", false⟩, ⟨"KEY=s=t", true⟩, ⟨"B=", false⟩]) true =
      some (some [⟨.known "KEY", .known "s=t"⟩]) ∧
    ∃ st, InstanceResource.Read refuseDuplicateSetElements exampleApi exampleInstanceState =
        some ⟨[], some st,
          [.GetClusterInstance "instance-1", .GetClusterInstanceOrder "order-1",
           .GetCluster "cluster-1"]⟩ ∧
      st.Env = some [⟨.known "A", .known "1"⟩, ⟨.known "B", .known ""⟩] ∧
      st.EnvSecret = some [⟨.known "KEY", .known "s=t"⟩] := by
  obtain ⟨env, envSecret, h1, h2, _, _, _, hread⟩ :=
    mapClientEnvsToEnvs_partition
      (some [⟨"A=1", false⟩, ⟨"KEY=s=t", true⟩, ⟨"B=", false⟩]) (by decide)
  have he : env = some [⟨.known "A", .known "1"⟩, ⟨.known "B", .known ""⟩] :=
    Option.some.inj (h1.symm.trans (by decide))
  have hs : envSecret = some [⟨.known "KEY", .known "s=t"⟩] :=
    Option.some.inj (h2.symm.trans (by decide))
  obtain ⟨st, _, hE, hS, hR⟩ := hread refuseDuplicateSetElements exampleApi exampleInstanceState
    ⟨"order-1", "cluster-1", ⟨"/health", ⟨8080, 80⟩⟩⟩ exampleOrder ⟨"cluster-a"⟩
    rfl rfl rfl rfl rfl
  have hset : refuseDuplicateSetElements st = [] := by
    unfold refuseDuplicateSetElements
    rw [hE, hS, he, hs]
    decide
  rw [hset] at hR
  exact ⟨by decide, by decide, by decide, st, hR, hE.trans he, hS.trans hs⟩

/-! ## Domain `Create`: state and diagnostics -/

/-- Domain `Create` either stores a state and adds no diagnostic, or stores no
state and adds exactly one diagnostic. -/
theorem DomainResource.Create_state_or_error (r : client.SpheronApi)
    (plan : DomainResourceModel) :
    (∃ inst order domain,
      isValidDomainType plan.Type_.ValueString = true ∧
      r.GetClusterInstance plan.InstanceID.ValueString = .ok inst ∧
      r.GetClusterInstanceOrder inst.ActiveOrder = .ok order ∧
      getInstanceDeploymentURL order plan.InstancePort.ValueInt64 ≠ "" ∧
      r.AddClusterInstanceDomain plan.InstanceID.ValueString
        { Name := plan.Name.ValueString, Type_ := plan.Type_.ValueString,
          Link := getInstanceDeploymentURL order plan.InstancePort.ValueInt64 } = .ok domain ∧
      (DomainResource.Create r plan).State =
        some { plan with ID := .known domain.ID, Verified := .known domain.Verified } ∧
      (DomainResource.Create r plan).Diagnostics = []) ∨
    ((DomainResource.Create r plan).State = none ∧
      (DomainResource.Create r plan).Diagnostics.length = 1) := by
  by_cases hv : isValidDomainType plan.Type_.ValueString = true
  · cases hi : r.GetClusterInstance plan.InstanceID.ValueString with
    | error e =>
      right
      simp [DomainResource.Create, hv, hi]
    | ok inst =>
      cases ho : r.GetClusterInstanceOrder inst.ActiveOrder with
      | error e =>
        right
        simp [DomainResource.Create, hv, hi, ho]
      | ok order =>
        rw [DomainResource.Create_of_order r plan inst order hv hi ho]
        by_cases hu : getInstanceDeploymentURL order plan.InstancePort.ValueInt64 = ""
        · right
          rw [if_pos hu]
          exact ⟨rfl, rfl⟩
        · rw [if_neg hu]
          cases ha : r.AddClusterInstanceDomain plan.InstanceID.ValueString
              { Name := plan.Name.ValueString, Type_ := plan.Type_.ValueString,
                Link := getInstanceDeploymentURL order plan.InstancePort.ValueInt64 } with
          | error e =>
            right
            exact ⟨rfl, rfl⟩
          | ok domain =>
            left
            exact ⟨inst, order, domain, hv, rfl, ho, hu, ha, rfl, rfl⟩
  · right
    simp [DomainResource.Create, hv]

/-- C11: when domain `Create` stores a state, every call succeeded, no diagnostic
was added, and the state is the plan with `id` set to the returned domain's ID
and `verified` to its `Verified` flag, with `name`, `type`, `instance_port` and
`instance_id` as planned; when the calls succeed for a plan of a supported type
with a deployment URL, that state is stored; and when the instance read, the
order read or the add-domain call fails, `Create` adds exactly one error
diagnostic, carrying the error of the call, and writes no state. -/
theorem DomainResource.Create_frame (r : client.SpheronApi) (plan : DomainResourceModel) :
    (∀ st, (DomainResource.Create r plan).State = some st →
      ∃ inst order domain,
        r.GetClusterInstance plan.InstanceID.ValueString = .ok inst ∧
        r.GetClusterInstanceOrder inst.ActiveOrder = .ok order ∧
        r.AddClusterInstanceDomain plan.InstanceID.ValueString
          { Name := plan.Name.ValueString, Type_ := plan.Type_.ValueString,
            Link := getInstanceDeploymentURL order plan.InstancePort.ValueInt64 } =
          .ok domain ∧
        (DomainResource.Create r plan).Diagnostics = [] ∧
        st = { plan with ID := .known domain.ID, Verified := .known domain.Verified } ∧
        st.ID = .known domain.ID ∧ st.Verified = .known domain.Verified ∧
        st.Name = plan.Name ∧ st.Type_ = plan.Type_ ∧
        st.InstancePort = plan.InstancePort ∧ st.InstanceID = plan.InstanceID) ∧
    (∀ inst order domain,
      isValidDomainType plan.Type_.ValueString = true →
      r.GetClusterInstance plan.InstanceID.ValueString = .ok inst →
      r.GetClusterInstanceOrder inst.ActiveOrder = .ok order →
      getInstanceDeploymentURL order plan.InstancePort.ValueInt64 ≠ "" →
      r.AddClusterInstanceDomain plan.InstanceID.ValueString
        { Name := plan.Name.ValueString, Type_ := plan.Type_.ValueString,
          Link := getInstanceDeploymentURL order plan.InstancePort.ValueInt64 } = .ok domain →
      (DomainResource.Create r plan).State =
        some { plan with ID := .known domain.ID, Verified := .known domain.Verified } ∧
      (DomainResource.Create r plan).Diagnostics = []) ∧
    (isValidDomainType plan.Type_.ValueString = true →
      (∀ err, r.GetClusterInstance plan.InstanceID.ValueString = .error err →
        DomainResource.Create r plan =
          ⟨[⟨"Unable to create domain for instance", err⟩], none,
            [.GetClusterInstance plan.InstanceID.ValueString]⟩) ∧
      (∀ inst err, r.GetClusterInstance plan.InstanceID.ValueString = .ok inst →
        r.GetClusterInstanceOrder inst.ActiveOrder = .error err →
        DomainResource.Create r plan =
          ⟨[⟨"Unable to create domain for instance", err⟩], none,
            [.GetClusterInstance plan.InstanceID.ValueString,
             .GetClusterInstanceOrder inst.ActiveOrder]⟩) ∧
      (∀ inst order err, r.GetClusterInstance plan.InstanceID.ValueString = .ok inst →
        r.GetClusterInstanceOrder inst.ActiveOrder = .ok order →
        getInstanceDeploymentURL order plan.InstancePort.ValueInt64 ≠ "" →
        r.AddClusterInstanceDomain plan.InstanceID.ValueString
          { Name := plan.Name.ValueString, Type_ := plan.Type_.ValueString,
            Link := getInstanceDeploymentURL order plan.InstancePort.ValueInt64 } =
          .error err →
        DomainResource.Create r plan =
          ⟨[⟨"Unable to create domain", err⟩], none,
            [.GetClusterInstance plan.InstanceID.ValueString,
             .GetClusterInstanceOrder inst.ActiveOrder,
             .AddClusterInstanceDomain plan.InstanceID.ValueString
               { Name := plan.Name.ValueString, Type_ := plan.Type_.ValueString,
                 Link := getInstanceDeploymentURL order plan.InstancePort.ValueInt64 }]⟩)) ∧
    ((DomainResource.Create r plan).State = none →
      (DomainResource.Create r plan).Diagnostics.length = 1) := by
  refine ⟨?_, ?_, ?_, ?_⟩
  · intro st hst
    rcases DomainResource.Create_state_or_error r plan with
      ⟨inst, order, domain, _, hi, ho, _, ha, hs, hd⟩ | ⟨hnone, _⟩
    · rw [hs] at hst
      have hst' := (Option.some.inj hst).symm
      refine ⟨inst, order, domain, hi, ho, ha, hd, hst', ?_⟩
      rw [hst']
      exact ⟨rfl, rfl, rfl, rfl, rfl, rfl⟩
    · rw [hnone] at hst
      cases hst
  · intro inst order domain hv hi ho hu ha
    rw [DomainResource.Create_of_order r plan inst order hv hi ho, if_neg hu]
    simp only [ha, and_self]
  · intro hv
    refine ⟨?_, ?_, ?_⟩
    · intro err hi
      simp [DomainResource.Create, hv, hi, unableToCreateDomainForInstance]
    · intro inst err hi ho
      simp [DomainResource.Create, hv, hi, ho, unableToCreateDomainForInstance]
    · intro inst order err hi ho hu ha
      rw [DomainResource.Create_of_order r plan inst order hv hi ho, if_neg hu]
      simp only [ha]
  · intro hnone
    rcases DomainResource.Create_state_or_error r plan with
      ⟨_, _, _, _, _, _, _, _, hs, _⟩ | ⟨_, hlen⟩
    · rw [hs] at hnone
      cases hnone
    · exact hlen

/-- C11, at `exampleDomainPlan` with a client whose calls succeed and answer the
domain request with the verified domain `domain-1`: the stored state is the plan
with id `domain-1` and verified true; and when the add-domain call fails with
`conflict`, one diagnostic is added and no state is written. -/
theorem DomainResource.Create_frame_witness :
    ((DomainResource.Create exampleApi exampleDomainPlan).State =
        some { exampleDomainPlan with ID := .known "domain-1", Verified := .known true } ∧
      (DomainResource.Create exampleApi exampleDomainPlan).Diagnostics = []) ∧
    DomainResource.Create
        { exampleApi with AddClusterInstanceDomain := fun _ _ => .error "conflict" }
        exampleDomainPlan =
      ⟨[⟨"Unable to create domain", "conflict"⟩], none,
        [.GetClusterInstance "instance-1", .GetClusterInstanceOrder "order-1",
         .AddClusterInstanceDomain "instance-1"
           ⟨"www.example", "subdomain", "provider.example:31000"⟩]⟩ :=
  ⟨(DomainResource.Create_frame exampleApi exampleDomainPlan).2.1
      ⟨"order-1", "cluster-1", ⟨"/health", ⟨8080, 80⟩⟩⟩ exampleOrder
      ⟨"domain-1", "www.example", true, "provider.example:31000", "subdomain"⟩
      (by decide) rfl rfl (by decide) rfl,
   ((DomainResource.Create_frame
      { exampleApi with AddClusterInstanceDomain := fun _ _ => .error "conflict" }
      exampleDomainPlan).2.2.1 (by decide)).2.2
      ⟨"order-1", "cluster-1", ⟨"/health", ⟨8080, 80⟩⟩⟩ exampleOrder "conflict"
      rfl rfl (by decide) rfl⟩

end Spheron
